import Mathlib

set_option linter.unusedVariables false

/-! Verification development for the WebVerse Lab Runtime Orchestrator and
Progress Synchronization Cache.  The definitions below are shallow embeddings
of the Python source under src/webverse: gui/app_state.py (AppState),
gui/views/lab_detail.py (LabDetailView start/stop/reset flows),
gui/main_window.py (navigation lock policy) and core/progress_db.py
(cache, auth state, remote requests).  The module core/runtime.py
(get_running_lab / set_running_lab) is not present under src/, so the
Runtime Lock itself is modelled from the spec as a single persisted
optional lab id. -/

/-- Embedding of the Python str.lower method (ASCII lowering, as used on the
small fixed op names). -/
def pyLower (s : String) : String := String.mk (s.data.map Char.toLower)

/-- Embedding of the Python str.strip method: drop whitespace on both ends. -/
def pyStrip (s : String) : String :=
  String.mk (((s.data.dropWhile Char.isWhitespace).reverse.dropWhile Char.isWhitespace).reverse)

/-- Python truthiness of an optional string: None and the empty string are falsy. -/
def optTruthy : Option String → Bool
  | none => false
  | some s => s ≠ ""

/-- Python idiom str(x) if x else empty, applied to an optional string. -/
def lidStr : Option String → String
  | none => ""
  | some s => s

/-- The transient (non-terminal) op names used by AppState.set_runtime_op
and the busy guard in LabDetailView. -/
def transientOps : List String := ["starting", "stopping", "resetting"]

/-- Op normalization at the top of AppState.set_runtime_op: strip and
lowercase, an empty op becomes stopped, an unknown op becomes stopped. -/
def normalizeOp (op : String) : String :=
  let t := pyLower (pyStrip op)
  let t := if t = "" then "stopped" else t
  if t ∈ ["starting", "stopping", "resetting", "running", "stopped"] then t else "stopped"

/-- Progress-store write events observable through progress_db
(mark_started / mark_attempt / mark_solved and flag submission). -/
inductive PEvent
  | markStarted (lab : String)
  | markAttempt (lab : String)
  | markSolved (lab : String)
  | submitFlagEv (lab : String) (ok : Bool)
deriving DecidableEq, Repr

/-- Global mutable state of the orchestrator: the AppState transient op pair
(_runtime_op, _runtime_op_lab_id), the in-memory running lab id
(_running_lab_id), the persisted Runtime Lock (core.runtime, modelled from
the spec) and a log of progress-store writes. -/
structure SysState where
  runtimeOp : String
  runtimeOpLabId : Option String
  runningLabId : Option String
  persistedLock : Option String
  progLog : List PEvent
deriving DecidableEq, Repr

/-- Initial state: op stopped, no lab anywhere, empty write log. -/
def initState : SysState :=
  { runtimeOp := "stopped", runtimeOpLabId := none, runningLabId := none,
    persistedLock := none, progLog := [] }

/-- AppState.set_runtime_op (app_state.py lines 198-229): normalize the op,
apply the hard clobber guard (a transient op held by one lab may not be
overwritten or cleared by a different lab), then store the pair. -/
def set_runtime_op (s : SysState) (op : String) (labId : Option String) : SysState :=
  let opN := normalizeOp op
  let curOp := pyLower (pyStrip s.runtimeOp)
  let curLid := lidStr s.runtimeOpLabId
  let newLid := lidStr labId
  if curOp ∈ transientOps ∧ curLid ≠ "" ∧
     ((opN ∈ transientOps ∧ newLid ≠ "" ∧ newLid ≠ curLid) ∨
      (opN = "stopped" ∧ newLid ≠ "" ∧ newLid ≠ curLid)) then s
  else
    { s with runtimeOp := opN,
             runtimeOpLabId := if optTruthy labId ∧ opN ≠ "stopped" then labId else none }

/-- AppState.runtime_op_for (app_state.py lines 231-244): transient op for the
given lab if it holds one, else running if it is the running lab, else stopped. -/
def runtime_op_for (s : SysState) (labId : Option String) : String :=
  let lid := lidStr labId
  if lid ≠ "" ∧ optTruthy s.runtimeOpLabId ∧ lid = lidStr s.runtimeOpLabId ∧
     s.runtimeOp ∈ transientOps then s.runtimeOp
  else if lid ≠ "" ∧ optTruthy s.runningLabId ∧ lid = lidStr s.runningLabId then "running"
  else "stopped"

/-- Reading of the global TransientOp for one lab: the labs transient op is
the global op when the global lab id points at it, else stopped. -/
def transientOpFor (s : SysState) (lab : String) : String :=
  if s.runtimeOpLabId = some lab then s.runtimeOp else "stopped"

/-- AppState.set_running_lab_id (app_state.py lines 381-422): store the id in
memory and on disk, resolve the transient op without clobbering an in-flight
op of another lab, and treat running as started (progress write). -/
def set_running_lab_id (s : SysState) (labId : Option String) : SysState :=
  if labId = s.runningLabId then s
  else
    let s1 : SysState := { s with runningLabId := labId, persistedLock := labId }
    let curOp := pyLower (pyStrip s1.runtimeOp)
    let curLid := lidStr s1.runtimeOpLabId
    let newLid := lidStr labId
    let s2 :=
      if optTruthy labId then
        if curOp ∈ ["starting", "resetting"] ∧ (curLid = "" ∨ curLid = newLid) then
          set_runtime_op s1 "running" labId
        else if curOp ∉ transientOps then
          set_runtime_op s1 "running" labId
        else s1
      else
        if curOp ∈ ["stopping", "resetting"] then set_runtime_op s1 "stopped" none
        else if curOp ∉ transientOps then set_runtime_op s1 "stopped" none
        else s1
    if optTruthy labId then
      { s2 with progLog := s2.progLog ++ [PEvent.markStarted (lidStr labId)] }
    else s2

/-- LabDetailView._set_op_state with broadcast=True: forwards to
AppState.set_runtime_op with target_id or None. -/
def set_op_state_broadcast (s : SysState) (st : String) (lab : String) : SysState :=
  set_runtime_op s st (if lab = "" then none else some lab)

/-- Outcome of the synchronous part of LabDetailView._on_start. -/
inductive StartResult
  | busyOther
  | busySelf
  | alreadyRunning
  | portsBusy
  | launched
deriving DecidableEq, Repr

/-- LabDetailView._on_start (lab_detail.py lines 1648-1718), synchronous part:
busy guard on the global transient op, single-running-lab guard on the
persisted Runtime Lock, port precheck, then speculative lock plus op starting. -/
def on_start (s : SysState) (lab : String) (portsInUse : Bool) : SysState × StartResult :=
  let busyId := s.runtimeOpLabId
  let busyOp := if optTruthy busyId then runtime_op_for s busyId else ""
  if optTruthy busyId ∧ lidStr busyId ≠ lab ∧ busyOp ∈ transientOps then
    (s, StartResult.busyOther)
  else if optTruthy busyId ∧ lidStr busyId = lab ∧ busyOp ∈ transientOps then
    (s, StartResult.busySelf)
  else
    let runningId := s.persistedLock
    if optTruthy runningId ∧ lidStr runningId ≠ lab then (s, StartResult.alreadyRunning)
    else if portsInUse then (s, StartResult.portsBusy)
    else
      let s1 : SysState := { s with persistedLock := some lab }
      (set_op_state_broadcast s1 "starting" lab, StartResult.launched)

/-- Completion callback of LabDetailView._on_start (lines 1720-1749): on
success mark started and promote to running; on failure clear the lock if
still owned and resolve the op to stopped. -/
def on_start_done (s : SysState) (lab : String) (ok : Bool) : SysState :=
  if ok then
    let s1 : SysState := { s with progLog := s.progLog ++ [PEvent.markStarted lab] }
    let s2 := set_running_lab_id s1 (some lab)
    set_op_state_broadcast s2 "running" lab
  else
    let s1 : SysState :=
      if s.persistedLock = some lab then { s with persistedLock := none } else s
    let s2 := set_running_lab_id s1 none
    set_op_state_broadcast s2 "stopped" lab

/-- LabDetailView._on_stop (lines 1753-1758), synchronous part: op stopping. -/
def on_stop (s : SysState) (lab : String) : SysState :=
  set_op_state_broadcast s "stopping" lab

/-- Completion callback of LabDetailView._on_stop (lines 1760-1779): clear the
running lab only on success, then resolve the op to stopped in either case. -/
def on_stop_done (s : SysState) (lab : String) (ok : Bool) : SysState :=
  let s1 := if ok then set_running_lab_id s none else s
  set_op_state_broadcast s1 "stopped" lab

/-- LabDetailView._on_reset (lines 1781-1792), synchronous part: keep the lock
during reset and set op resetting. -/
def on_reset (s : SysState) (lab : String) : SysState :=
  let s1 : SysState := { s with persistedLock := some lab }
  set_op_state_broadcast s1 "resetting" lab

/-- Completion callback of LabDetailView._on_reset (lines 1794-1837). -/
def on_reset_done (s : SysState) (lab : String) (ok : Bool) : SysState :=
  if ok then
    let s1 : SysState := { s with persistedLock := some lab }
    let s2 := set_running_lab_id s1 (some lab)
    set_op_state_broadcast s2 "running" lab
  else
    let s1 : SysState := { s with persistedLock := none }
    let s2 := set_running_lab_id s1 none
    set_op_state_broadcast s2 "stopped" lab

/-- AppState.submit_flag (app_state.py lines 295-328): an empty flag is
rejected up front; otherwise the lab is marked started before the server-side
validation, whose verdict is passed in as serverOk. -/
def submit_flag_app (s : SysState) (lab flag : String) (serverOk : Bool)
    (serverErr : String) : SysState × (Bool × String) :=
  let submitted := pyStrip flag
  if submitted = "" then (s, (false, "Empty flag."))
  else
    let s1 : SysState := { s with progLog := s.progLog ++ [PEvent.markStarted lab] }
    let s2 : SysState :=
      { s1 with progLog := s1.progLog ++ [PEvent.submitFlagEv lab serverOk] }
    if serverOk then (s2, (true, ""))
    else (s2, (false, if serverErr = "" then "Invalid flag." else serverErr))

/-- Events driving the orchestrator state machine: requests and completions of
start, stop and reset, plus flag submissions. -/
inductive Event
  | startReq (lab : String) (portsInUse : Bool)
  | startDone (lab : String) (ok : Bool)
  | stopReq (lab : String)
  | stopDone (lab : String) (ok : Bool)
  | resetReq (lab : String)
  | resetDone (lab : String) (ok : Bool)
  | flagSubmit (lab flag : String) (serverOk : Bool)
deriving DecidableEq, Repr

/-- One step of the orchestrator state machine. -/
def step (s : SysState) : Event → SysState
  | Event.startReq lab pb => (on_start s lab pb).1
  | Event.startDone lab ok => on_start_done s lab ok
  | Event.stopReq lab => on_stop s lab
  | Event.stopDone lab ok => on_stop_done s lab ok
  | Event.resetReq lab => on_reset s lab
  | Event.resetDone lab ok => on_reset_done s lab ok
  | Event.flagSubmit lab flag ok => (submit_flag_app s lab flag ok "").1

/-- Run a sequence of events from the initial state. -/
def run (evs : List Event) : SysState := evs.foldl step initState

/-! Embedding of core/progress_db.py: the tiny in-process cache, the write
paths, the TTL reads, the auth state and the remote-request error handling. -/

/-- Per-lab progress row as normalized by get_progress_map. -/
structure Row where
  started_at : Option String
  solved_at : Option String
  attempts : Int
  notes : String
deriving DecidableEq, Repr

/-- Summary counters as normalized by get_summary. -/
structure Summary where
  started : Int
  solved : Int
  attempts : Int
deriving DecidableEq, Repr

/-- Raw progress blob fetched from the remote authority. -/
structure Blob where
  progress : List (String × Row)
  summary : Summary
deriving DecidableEq, Repr

/-- Empty blob, the value produced from an empty response dict. -/
def emptyBlob : Blob := { progress := [], summary := { started := 0, solved := 0, attempts := 0 } }

/-- DeviceStats dataclass of progress_db. -/
structure DeviceStats where
  xp : Int
  rank : String
  next_rank : Option String
  next_rank_xp : Option Int
  streak_days : Int
  labs_solved : Int
  labs_started : Int
deriving DecidableEq, Repr

/-- Default DeviceStats, as constructed by DeviceStats() in the gated branch. -/
def defaultStats : DeviceStats :=
  { xp := 0, rank := "Recruit", next_rank := none, next_rank_xp := none,
    streak_days := 0, labs_solved := 0, labs_started := 0 }

/-- The module-level _cache dict of progress_db: each entry is a fetch
timestamp paired with an optional value (None meaning absent).  The keys
profile and activity_first can be popped entirely, hence the outer Option. -/
structure Cache where
  progressBlob : ℚ × Option Blob
  progressMap : ℚ × Option (List (String × Row))
  summary : ℚ × Option Summary
  recent : List (Nat × (ℚ × List Row))
  notes : List (String × (ℚ × String))
  stats : ℚ × Option DeviceStats
  deviceLinked : ℚ × Option Bool
  profile : Option (ℚ × List (String × String))
  activityFirst : Option (ℚ × List (String × String))
deriving DecidableEq, Repr

/-- Freshness helper _fresh: a cache timestamp is fresh while now minus ts is
at most the ttl (default 2 seconds). -/
def freshB (now ts ttl : ℚ) : Bool := decide (now - ts ≤ ttl)

/-- progress_db._invalidate (lines 111-124): reset the blob, map, summary and
stats entries, clear recent, pop the notes entry of the given lab, and drop
the auth-backed profile and activity entries. -/
def _invalidate (c : Cache) (labId : Option String) : Cache :=
  { c with progressBlob := (0, none), progressMap := (0, none), summary := (0, none),
           recent := [],
           notes := match labId with
                    | some l => c.notes.filter (fun p => p.1 != l)
                    | none => c.notes,
           stats := (0, none),
           profile := none, activityFirst := none }

/-- progress_db.mark_started (lines 505-514): invalidate for the lab, then
send the lab_started telemetry event. -/
def mark_started (c : Cache) (labId : String) : Cache := _invalidate c (some labId)

/-- progress_db.mark_attempt (lines 517-523). -/
def mark_attempt (c : Cache) (labId : String) : Cache := _invalidate c (some labId)

/-- progress_db.mark_solved (lines 526-535). -/
def mark_solved (c : Cache) (labId : String) : Cache := _invalidate c (some labId)

/-- progress_db.set_notes (lines 698-704): POST the notes, cache the new
value, then invalidate (which pops this very notes entry again). -/
def set_notes (c : Cache) (labId notes : String) (now : ℚ) : Cache :=
  let c1 : Cache :=
    { c with notes := (labId, (now, notes)) :: c.notes.filter (fun p => p.1 != labId) }
  _invalidate c1 (some labId)

/-- progress_db.submit_flag (lines 537-565): validate inputs, send to the
server (verdict passed in as serverOk), invalidate only on acceptance. -/
def submit_flag (c : Cache) (labId flag : String) (serverOk : Bool)
    (serverErr : String) : Cache × (Bool × String) :=
  let l := pyStrip labId
  let f := pyStrip flag
  if l = "" then (c, (false, "Invalid lab_id."))
  else if f = "" then (c, (false, "Empty flag."))
  else if serverOk then (_invalidate c (some l), (true, ""))
  else (c, (false, if serverErr = "" then "Invalid flag." else serverErr))

/-- progress_db._fetch_progress_blob (lines 568-588): cached read with the
default 2s TTL; when gated (device linked but logged out) an empty blob is
cached and no fetch happens; the returned Bool records whether a real remote
fetch was performed. -/
def _fetch_progress_blob (c : Cache) (force : Bool) (now : ℚ) (gated : Bool)
    (remote : Blob) : Blob × Cache × Bool :=
  let ts := c.progressBlob.1
  let cached := c.progressBlob.2
  if !force && cached.isSome && freshB now ts 2 then (cached.getD emptyBlob, c, false)
  else if gated then (emptyBlob, { c with progressBlob := (now, some emptyBlob) }, false)
  else (remote, { c with progressBlob := (now, some remote) }, true)

/-- progress_db.get_progress_map (lines 591-620): cached read, else fetch the
blob, normalize rows (skipping empty lab ids), cache, return.  The Bool
records whether a remote fetch was performed. -/
def get_progress_map (c : Cache) (force : Bool) (now : ℚ) (gated : Bool)
    (remote : Blob) : List (String × Row) × Cache × Bool :=
  let ts := c.progressMap.1
  let data := c.progressMap.2
  if !force && data.isSome && freshB now ts 2 then (data.getD [], c, false)
  else
    let r := _fetch_progress_blob c force now gated remote
    let out := r.1.progress.filter (fun p => p.1 != "")
    (out, { r.2.1 with progressMap := (now, some out) }, r.2.2)

/-- progress_db.get_summary (lines 623-640): cached read (no force parameter),
else fetch the blob and cache the summary. -/
def get_summary (c : Cache) (now : ℚ) (gated : Bool) (remote : Blob) :
    Summary × Cache × Bool :=
  let ts := c.summary.1
  let data := c.summary.2
  if data.isSome && freshB now ts 2 then (data.getD emptyBlob.summary, c, false)
  else
    let r := _fetch_progress_blob c false now gated remote
    (r.1.summary, { r.2.1 with summary := (now, some r.1.summary) }, r.2.2)

/-- progress_db.get_device_stats (lines 456-502): cached read; when gated,
default stats are cached without fetching; otherwise fetch.  The Bool records
whether a remote fetch was performed. -/
def get_device_stats (c : Cache) (force : Bool) (now : ℚ) (gated : Bool)
    (remote : DeviceStats) : DeviceStats × Cache × Bool :=
  let ts := c.stats.1
  let cached := c.stats.2
  if !force && cached.isSome && freshB now ts 2 then (cached.getD defaultStats, c, false)
  else if gated then (defaultStats, { c with stats := (now, some defaultStats) }, false)
  else (remote, { c with stats := (now, some remote) }, true)

/-- QSettings-backed auth state used by progress_db. -/
structure Settings where
  access_token : String
  refresh_token : String
  username : String
  email : String
  xp : Int
  rank : String
deriving DecidableEq, Repr

/-- progress_db.is_logged_in (lines 74-77): a non-blank access token. -/
def is_logged_in (st : Settings) : Bool := pyStrip st.access_token ≠ ""

/-- progress_db._clear_auth_state (lines 246-262): blank every auth setting
and invalidate the cache. -/
def _clear_auth_state (st : Settings) (c : Cache) : Settings × Cache :=
  ({ access_token := "", refresh_token := "", username := "", email := "",
     xp := 0, rank := "" },
   _invalidate c none)

/-- Outcome of one HTTP request as seen by _request_json. -/
inductive ReqOutcome
  | okResp
  | httpError (code : Int)
  | netError
deriving DecidableEq, Repr

/-- progress_db._request_json (lines 316-351): on an HTTPError with code 401
on an authenticated call, clear the auth state and invalidate the cache, then
re-raise; every error is re-raised to the caller. -/
def _request_json (st : Settings) (c : Cache) (method url : String) (auth : Bool)
    (outcome : ReqOutcome) : Except ReqOutcome Unit × Settings × Cache :=
  match outcome with
  | ReqOutcome.okResp => (Except.ok (), st, c)
  | ReqOutcome.httpError code =>
      if auth && (code == 401) then
        let r := _clear_auth_state st c
        (Except.error (ReqOutcome.httpError code), r.1, _invalidate r.2 none)
      else (Except.error (ReqOutcome.httpError code), st, c)
  | ReqOutcome.netError => (Except.error ReqOutcome.netError, st, c)

/-- Outcome of the device-linked lookup: a body with the linked field, an
HTTP error (swallowed into an empty dict by _safe_request_json), or a
connectivity error (which propagates as an exception). -/
inductive LinkResp
  | okResp (linked : Bool)
  | httpError
  | netError
deriving DecidableEq, Repr

/-- progress_db.is_device_linked (lines 218-232): cached for 30s; an HTTP
error yields an empty dict hence linked false; a connectivity error raises
before anything is cached. -/
def is_device_linked (c : Cache) (force : Bool) (now : ℚ) (resp : LinkResp) :
    Except Unit (Bool × Cache) :=
  let ts := c.deviceLinked.1
  let cached := c.deviceLinked.2
  if !force && cached.isSome && freshB now ts 30 then Except.ok (cached.getD false, c)
  else
    match resp with
    | LinkResp.okResp b => Except.ok (b, { c with deviceLinked := (now, some b) })
    | LinkResp.httpError => Except.ok (false, { c with deviceLinked := (now, some false) })
    | LinkResp.netError => Except.error ()

/-- progress_db.requires_login_gate (lines 234-244): logged-in users are never
gated; otherwise the device linkage decides; any exception fails open. -/
def requires_login_gate (st : Settings) (c : Cache) (force : Bool) (now : ℚ)
    (resp : LinkResp) : Bool × Cache :=
  if is_logged_in st then (false, c)
  else
    match is_device_linked c force now resp with
    | Except.ok r => r
    | Except.error _ => (false, c)

/-- MainWindow.navigate (main_window.py line 554): locked means linked and
not logged in. -/
def navigate_locked (linked loggedIn : Bool) : Bool := linked && !loggedIn

/-! Embedding of the convergence polling loops of gui/app_state.py. -/

/-- Backoff step of _refresh_progress_after_solve_async: multiply by 1.7,
cap at 1.2 seconds. -/
def solveDelayNext (d : ℚ) : ℚ := min (6/5) (d * (17/10))

/-- Backoff step of _refresh_player_stats_async: multiply by 1.8, cap at 1.0. -/
def statsDelayNext (d : ℚ) : ℚ := min 1 (d * (9/5))

/-- Delay before the next retry after n sleeps in the solve poll (base 0.15s). -/
def solveDelaySeq : Nat → ℚ
  | 0 => 3/20
  | n + 1 => solveDelayNext (solveDelaySeq n)

/-- Delay before the next retry after n sleeps in the stats poll (base 0.18s). -/
def statsDelaySeq : Nat → ℚ
  | 0 => 9/50
  | n + 1 => statsDelayNext (statsDelaySeq n)

/-- Background loop of AppState._refresh_progress_after_solve_async (lines
263-280): up to fuel forced reads; each read yields the solved_at field of
the rows lab entry (or an exception, swallowed by the inner try); stop early
when solved_at is truthy, else sleep the current delay and back off.  Returns
the number of forced reads performed, the sleeps taken, and convergence. -/
def solvePollGo (fetch : Nat → Except Unit (Option String)) :
    Nat → Nat → ℚ → Nat × List ℚ × Bool
  | _, 0, _ => (0, [], false)
  | i, fuel + 1, d =>
    let hit := match fetch i with
               | Except.ok v => optTruthy v
               | Except.error _ => false
    if hit then (1, [], true)
    else
      let rest := solvePollGo fetch (i + 1) fuel (solveDelayNext d)
      (rest.1 + 1, d :: rest.2.1, rest.2.2)

/-- The solve poll with its configured budget: 6 attempts, base delay 0.15s. -/
def solvePoll (fetch : Nat → Except Unit (Option String)) : Nat × List ℚ × Bool :=
  solvePollGo fetch 0 6 (3/20)

/-- Attempt budget of _refresh_player_stats_async: max(1, 4 if expecting a
solved increment else 2). -/
def statsAttempts (expect : Bool) : Nat := max 1 (if expect then 4 else 2)

/-- Background loop of AppState._refresh_player_stats_async (lines 156-173):
forced stats reads; a read exception aborts the whole loop (outer try); when
expecting a solve, stop as soon as labs_solved reaches prev + 1; else sleep
and back off.  Returns reads performed and whether the increment was seen. -/
def statsPollGo (expect : Bool) (prev : Int) (fetch : Nat → Except Unit Int) :
    Nat → Nat → ℚ → Nat × Bool
  | _, 0, _ => (0, false)
  | i, fuel + 1, d =>
    match fetch i with
    | Except.error _ => (1, false)
    | Except.ok v =>
        if expect && (v ≥ prev + 1) then (1, true)
        else
          let rest := statsPollGo expect prev fetch (i + 1) fuel (statsDelayNext d)
          (rest.1 + 1, rest.2)

/-- The stats poll with its configured budget and base delay 0.18s. -/
def statsPoll (expect : Bool) (prev : Int) (fetch : Nat → Except Unit Int) : Nat × Bool :=
  statsPollGo expect prev fetch 0 (statsAttempts expect) (9/50)

/-! Well-formedness of the op state. -/

/-- Well-formedness of the stored op pair: the op is one of the five
normalized names and a stored lab id is non-empty.  Every state reached
through set_runtime_op satisfies this. -/
def opWF (s : SysState) : Bool :=
  ["starting", "stopping", "resetting", "running", "stopped"].contains s.runtimeOp &&
  (match s.runtimeOpLabId with
   | none => true
   | some l => l != "")

/-! Invariant and sample definitions used by the claims about the op state machine. -/

/-- TransientOp invariant from the spec data model: a non-stopped op implies
the lab id is set. -/
def transientOpInv (s : SysState) : Prop :=
  s.runtimeOp ≠ "stopped" → s.runtimeOpLabId ≠ none

instance (s : SysState) : Decidable (transientOpInv s) :=
  inferInstanceAs (Decidable (_ → _))

/-! Derived definitions for the convergence-polling claims. -/

/-- Sleep sequence actually taken by the solve poll when it never converges:
fuel sleeps starting from delay d, backing off each time. -/
def solveBackList : Nat → ℚ → List ℚ
  | 0, _ => []
  | n + 1, d => d :: solveBackList n (solveDelayNext d)

/-! Sample values used by the cache, access-gate and 401 claims. -/

/-- Empty cache, the shape of the module-level _cache at import time. -/
def sampleCache : Cache :=
  { progressBlob := (0, none), progressMap := (0, none), summary := (0, none),
    recent := [], notes := [], stats := (0, none), deviceLinked := (0, none),
    profile := none, activityFirst := none }

/-- Settings of a logged-in user. -/
def sampleSettings : Settings :=
  { access_token := "tok", refresh_token := "ref", username := "u",
    email := "e", xp := 5, rank := "Recruit" }

/-! Claim C10: a heap-instrumented model of get_progress_map and get_summary.
Python dicts are mutable objects, so to reason about aliasing we give the
row dicts, the progress-map dict and the summary dict explicit addresses in
a small heap.  The two functions below are the same reads as get_progress_map
and get_summary (with _fetch_progress_blob inlined), except that building a
dict allocates and the comprehension dict(v) copies rows into new cells,
exactly as the Python source does. -/

/-- Heap objects: a row dict, a progress-map dict (lab id to row address) or
a summary dict. -/
inductive Obj
  | rowObj (r : Row)
  | mapObj (m : List (String × Nat))
  | summObj (s : Summary)
deriving DecidableEq, Repr

/-- Bump-allocating heap of dict objects. -/
structure Heap where
  next : Nat
  objs : List (Nat × Obj)
deriving DecidableEq, Repr

def Heap.get (h : Heap) (a : Nat) : Option Obj :=
  (h.objs.find? (fun p => p.1 == a)).map (fun p => p.2)

def Heap.alloc (h : Heap) (o : Obj) : Nat × Heap :=
  (h.next, { next := h.next + 1, objs := (h.next, o) :: h.objs })

/-- In-place mutation of the object at an address (a caller writing into a
dict it received). -/
def Heap.mut (h : Heap) (a : Nat) (o : Obj) : Heap :=
  { h with objs := h.objs.map (fun p => if p.1 == a then (a, o) else p) }

def rowDefault : Row := { started_at := none, solved_at := none, attempts := 0, notes := "" }

def readRow (h : Heap) (a : Nat) : Row :=
  match h.get a with
  | some (Obj.rowObj r) => r
  | _ => rowDefault

def readMap (h : Heap) (a : Nat) : List (String × Nat) :=
  match h.get a with
  | some (Obj.mapObj m) => m
  | _ => []

def readSumm (h : Heap) (a : Nat) : Summary :=
  match h.get a with
  | some (Obj.summObj s) => s
  | _ => emptyBlob.summary

/-- The dict comprehension of get_progress_map returns: for each entry, read
the row object and allocate a fresh copy (dict(v)). -/
def copyRows : Heap → List (String × Nat) → List (String × Nat) × Heap
  | h, [] => ([], h)
  | h, (k, a) :: rest =>
    let r := readRow h a
    let al := Heap.alloc h (Obj.rowObj r)
    let restR := copyRows al.2 rest
    ((k, al.1) :: restR.1, restR.2)

/-- Building the out dict on the fetch path: each normalized row becomes a
fresh row object. -/
def allocRows : Heap → List (String × Row) → List (String × Nat) × Heap
  | h, [] => ([], h)
  | h, (k, r) :: rest =>
    let al := Heap.alloc h (Obj.rowObj r)
    let restR := allocRows al.2 rest
    ((k, al.1) :: restR.1, restR.2)

/-- Cache entries of the heap model: progress_map and summary hold object
addresses (references to the dicts), the blob holds plain data. -/
structure CacheH where
  progressBlob : ℚ × Option Blob
  progressMap : ℚ × Option Nat
  summary : ℚ × Option Nat
deriving DecidableEq, Repr

/-- Heap-instrumented get_progress_map: a fresh cached read copies the cached
rows and outer dict into new objects; a fetch builds the out dict, caches the
object, then returns a copy of it.  Returns the returned dict address. -/
def get_progress_mapH (h : Heap) (c : CacheH) (force : Bool) (now : ℚ)
    (gated : Bool) (remote : Blob) : Nat × Heap × CacheH :=
  if !force && c.progressMap.2.isSome && freshB now c.progressMap.1 2 then
    let m := readMap h (c.progressMap.2.getD 0)
    let cp := copyRows h m
    let al := Heap.alloc cp.2 (Obj.mapObj cp.1)
    (al.1, al.2, c)
  else
    let blob := if gated then emptyBlob else remote
    let out := blob.progress.filter (fun p => p.1 != "")
    let ar := allocRows h out
    let alC := Heap.alloc ar.2 (Obj.mapObj ar.1)
    let c1 : CacheH := { c with progressBlob := (now, some blob),
                                progressMap := (now, some alC.1) }
    let cp := copyRows alC.2 ar.1
    let alR := Heap.alloc cp.2 (Obj.mapObj cp.1)
    (alR.1, alR.2, c1)

/-- Heap-instrumented get_summary: dict(data) and dict(out) are fresh
objects on every return. -/
def get_summaryH (h : Heap) (c : CacheH) (now : ℚ) (gated : Bool)
    (remote : Blob) : Nat × Heap × CacheH :=
  if c.summary.2.isSome && freshB now c.summary.1 2 then
    let sv := readSumm h (c.summary.2.getD 0)
    let al := Heap.alloc h (Obj.summObj sv)
    (al.1, al.2, c)
  else
    let blob := if gated then emptyBlob else remote
    let alC := Heap.alloc h (Obj.summObj blob.summary)
    let c1 : CacheH := { c with progressBlob := (now, some blob),
                                summary := (now, some alC.1) }
    let alR := Heap.alloc alC.2 (Obj.summObj blob.summary)
    (alR.1, alR.2, c1)

/-- Addresses reachable from a returned progress-map dict. -/
def retAddrs (h : Heap) (a : Nat) : List Nat :=
  a :: (readMap h a).map (fun p => p.2)

/-- Addresses the cache holds references to. -/
def cacheAddrs (h : Heap) (c : CacheH) : List Nat :=
  (match c.progressMap.2 with
   | some a => a :: (readMap h a).map (fun p => p.2)
   | none => []) ++
  (match c.summary.2 with
   | some a => [a]
   | none => [])

/-- Value view of a progress-map dict. -/
def mapValues (h : Heap) (a : Nat) : List (String × Row) :=
  (readMap h a).map (fun p => (p.1, readRow h p.2))

/-- Value view of what the cache holds. -/
def cacheView (h : Heap) (c : CacheH) : List (String × Row) × Summary :=
  ((match c.progressMap.2 with
    | some a => mapValues h a
    | none => []),
   (match c.summary.2 with
    | some a => readSumm h a
    | none => emptyBlob.summary))

def heapWFb (h : Heap) : Bool := h.objs.all (fun p => p.1 < h.next)

def cacheWFb (h : Heap) (c : CacheH) : Bool :=
  heapWFb h && (cacheAddrs h c).all (fun a => a < h.next)

/-- Empty heap for the C10 witness. -/
def sampleHeap : Heap := { next := 0, objs := [] }

/-- Empty heap-model cache for the C10 witness. -/
def sampleCacheH : CacheH :=
  { progressBlob := (0, none), progressMap := (0, none), summary := (0, none) }

/-- One-lab remote blob for the C10 witness. -/
def sampleBlob : Blob :=
  { progress := [("lab1", rowDefault)],
    summary := { started := 1, solved := 0, attempts := 0 } }

theorem norm_id_of_opset (s : String)
    (h : s ∈ ["starting", "stopping", "resetting", "running", "stopped"]) :
    pyLower (pyStrip s) = s := by
  simp only [List.mem_cons, List.not_mem_nil, or_false] at h
  rcases h with rfl | rfl | rfl | rfl | rfl <;> decide

theorem opWF_runtimeOp (s : SysState) (h : opWF s = true) :
    s.runtimeOp ∈ ["starting", "stopping", "resetting", "running", "stopped"] := by
  simp only [opWF, Bool.and_eq_true] at h
  simpa using h.1

theorem opWF_labId (s : SysState) (l : String) (h : opWF s = true)
    (hl : s.runtimeOpLabId = some l) : l ≠ "" := by
  simp only [opWF, Bool.and_eq_true] at h
  have := h.2
  rw [hl] at this
  simpa using this

/-- Characterization of set_runtime_op when the labId argument is None:
the clobber guard never fires because the new lab id is empty. -/
theorem set_runtime_op_none_arg (s : SysState) (op : String) :
    set_runtime_op s op none =
      { s with runtimeOp := normalizeOp op, runtimeOpLabId := none } := by
  simp [set_runtime_op, lidStr, optTruthy]

/-- Characterization of set_runtime_op when the target lab already holds the
transient op or no transient op is held: the guard passes and the pair is
stored. -/
theorem set_runtime_op_pass (s : SysState) (op : String) (l : String)
    (hl : l ≠ "")
    (hWF : opWF s = true)
    (hfree : s.runtimeOp ∈ transientOps → s.runtimeOpLabId = none ∨ s.runtimeOpLabId = some l) :
    set_runtime_op s op (some l) =
      { s with runtimeOp := normalizeOp op,
               runtimeOpLabId := if normalizeOp op = "stopped" then none else some l } := by
  have hnorm : pyLower (pyStrip s.runtimeOp) = s.runtimeOp :=
    norm_id_of_opset _ (opWF_runtimeOp s hWF)
  have hguard : ¬ (pyLower (pyStrip s.runtimeOp) ∈ transientOps ∧
      lidStr s.runtimeOpLabId ≠ "" ∧
      ((normalizeOp op ∈ transientOps ∧ lidStr (some l) ≠ "" ∧
        lidStr (some l) ≠ lidStr s.runtimeOpLabId) ∨
       (normalizeOp op = "stopped" ∧ lidStr (some l) ≠ "" ∧
        lidStr (some l) ≠ lidStr s.runtimeOpLabId))) := by
    rw [hnorm]
    rintro ⟨hmem, hlid, hbad⟩
    rcases hfree hmem with hn | hs
    · rw [hn] at hlid; exact hlid rfl
    · rw [hs] at hbad
      simp only [lidStr] at hbad
      rcases hbad with ⟨_, _, hne⟩ | ⟨_, _, hne⟩ <;> exact hne rfl
  rw [set_runtime_op, if_neg hguard]
  simp only [optTruthy, lidStr]
  congr 1
  by_cases hstop : normalizeOp op = "stopped"
  · simp [hstop]
  · simp [hstop, hl]

/-- Characterization of set_runtime_op when the clobber guard fires: a lab
distinct from the transient holder tries a transient or stopped op. -/
theorem set_runtime_op_blocked (s : SysState) (op : String) (l a : String)
    (hWF : opWF s = true)
    (hcur : s.runtimeOpLabId = some a)
    (hmem : s.runtimeOp ∈ transientOps)
    (hop : normalizeOp op ∈ transientOps ∨ normalizeOp op = "stopped")
    (hl : l ≠ "") (hne : l ≠ a) :
    set_runtime_op s op (some l) = s := by
  have hnorm : pyLower (pyStrip s.runtimeOp) = s.runtimeOp :=
    norm_id_of_opset _ (opWF_runtimeOp s hWF)
  have ha : a ≠ "" := opWF_labId s a hWF hcur
  rw [set_runtime_op]
  rw [if_pos]
  refine ⟨by rw [hnorm]; exact hmem, by rw [hcur]; simpa [lidStr] using ha, ?_⟩
  rcases hop with h | h
  · exact Or.inl ⟨h, by simpa [lidStr] using hl, by rw [hcur]; simpa [lidStr] using hne⟩
  · exact Or.inr ⟨h, by simpa [lidStr] using hl, by rw [hcur]; simpa [lidStr] using hne⟩

/-- C1: single active lab.  In any state reached by a sequence of start,
stop, reset and flag events: (1) two distinct lab ids never hold a
non-stopped transient op simultaneously (the TransientOp is one global
pair); (2) while the transient op is non-terminal for lab a, a start request
for a different lab is rejected immediately with the busy outcome and the
state unchanged, rather than queued; (3) a different lab cannot clobber the
in-flight transient op through set_runtime_op; (4) nor can a promotion
through set_running_lab_id change the in-flight pair. -/
theorem C1_single_active_lab (evs : List Event) (lab a : String) (pb : Bool)
    (ha : a ≠ "") (hWF : opWF (run evs) = true) :
    (∀ x y, x ≠ y →
      ¬ (transientOpFor (run evs) x ≠ "stopped" ∧
         transientOpFor (run evs) y ≠ "stopped")) ∧
    ((run evs).runtimeOpLabId = some a → (run evs).runtimeOp ∈ transientOps →
      lab ≠ a →
      on_start (run evs) lab pb = (run evs, StartResult.busyOther)) ∧
    (∀ op l, l ≠ "" → l ≠ a → (run evs).runtimeOpLabId = some a →
      (run evs).runtimeOp ∈ transientOps →
      (normalizeOp op ∈ transientOps ∨ normalizeOp op = "stopped") →
      set_runtime_op (run evs) op (some l) = run evs) ∧
    (∀ l, l ≠ "" → l ≠ a → (run evs).runtimeOpLabId = some a →
      (run evs).runtimeOp ∈ transientOps →
      (set_running_lab_id (run evs) (some l)).runtimeOp = (run evs).runtimeOp ∧
      (set_running_lab_id (run evs) (some l)).runtimeOpLabId =
        (run evs).runtimeOpLabId) := by
  refine ⟨?_, ?_, ?_, ?_⟩
  · rintro x y hxy ⟨h1, h2⟩
    by_cases hx : (run evs).runtimeOpLabId = some x
    · by_cases hy : (run evs).runtimeOpLabId = some y
      · rw [hx] at hy
        exact hxy (Option.some.inj hy)
      · exact h2 (by simp [transientOpFor, hy])
    · exact h1 (by simp [transientOpFor, hx])
  · intro hsome hmem hlab
    have halab : a ≠ lab := fun h => hlab h.symm
    have hfor : runtime_op_for (run evs) (some a) = (run evs).runtimeOp := by
      simp [runtime_op_for, hsome, lidStr, optTruthy, ha, hmem]
    simp [on_start, hsome, hfor, lidStr, optTruthy, ha, hmem, halab]
  · intro op l hl hla hsome hmem hop
    exact set_runtime_op_blocked _ op l a hWF hsome hmem hop hl hla
  · intro l hl hla hsome hmem
    by_cases hrun : (some l : Option String) = (run evs).runningLabId
    · simp [set_running_lab_id, hrun]
    · have hnorm : pyLower (pyStrip (run evs).runtimeOp) = (run evs).runtimeOp :=
        norm_id_of_opset _ (opWF_runtimeOp _ hWF)
      have hal : a ≠ l := fun h => hla h.symm
      simp [set_running_lab_id, hrun, hnorm, hsome, lidStr, optTruthy, hl, hmem, hal, ha]

/-- Witness for C1 at a concrete busy state: lab a is mid-start, lab b asks
to start. -/
theorem C1_single_active_lab_witness :
    (∀ x y, x ≠ y →
      ¬ (transientOpFor (run [Event.startReq "a" false]) x ≠ "stopped" ∧
         transientOpFor (run [Event.startReq "a" false]) y ≠ "stopped")) ∧
    ((run [Event.startReq "a" false]).runtimeOpLabId = some "a" →
      (run [Event.startReq "a" false]).runtimeOp ∈ transientOps → "b" ≠ "a" →
      on_start (run [Event.startReq "a" false]) "b" false =
        (run [Event.startReq "a" false], StartResult.busyOther)) ∧
    (∀ op l, l ≠ "" → l ≠ "a" →
      (run [Event.startReq "a" false]).runtimeOpLabId = some "a" →
      (run [Event.startReq "a" false]).runtimeOp ∈ transientOps →
      (normalizeOp op ∈ transientOps ∨ normalizeOp op = "stopped") →
      set_runtime_op (run [Event.startReq "a" false]) op (some l) =
        run [Event.startReq "a" false]) ∧
    (∀ l, l ≠ "" → l ≠ "a" →
      (run [Event.startReq "a" false]).runtimeOpLabId = some "a" →
      (run [Event.startReq "a" false]).runtimeOp ∈ transientOps →
      (set_running_lab_id (run [Event.startReq "a" false]) (some l)).runtimeOp =
        (run [Event.startReq "a" false]).runtimeOp ∧
      (set_running_lab_id (run [Event.startReq "a" false]) (some l)).runtimeOpLabId =
        (run [Event.startReq "a" false]).runtimeOpLabId) :=
  C1_single_active_lab [Event.startReq "a" false] "b" "a" false (by decide) (by decide)

theorem normalizeOp_starting : normalizeOp "starting" = "starting" := by decide

theorem normalizeOp_stopping : normalizeOp "stopping" = "stopping" := by decide

theorem normalizeOp_resetting : normalizeOp "resetting" = "resetting" := by decide

theorem normalizeOp_running : normalizeOp "running" = "running" := by decide

theorem normalizeOp_stopped : normalizeOp "stopped" = "stopped" := by decide

theorem set_runtime_op_progLog (s : SysState) (op : String) (lid : Option String) :
    (set_runtime_op s op lid).progLog = s.progLog := by
  rw [set_runtime_op]; split <;> rfl

theorem set_runtime_op_persistedLock (s : SysState) (op : String) (lid : Option String) :
    (set_runtime_op s op lid).persistedLock = s.persistedLock := by
  rw [set_runtime_op]; split <;> rfl

theorem set_runtime_op_runningLabId (s : SysState) (op : String) (lid : Option String) :
    (set_runtime_op s op lid).runningLabId = s.runningLabId := by
  rw [set_runtime_op]; split <;> rfl

/-- C9 counterexample: calling set_runtime_op with a non-stopped op and a
missing lab id produces a state with op starting and lab_id None, breaking
the invariant, so not every combination of arguments preserves it. -/
theorem C9_counterexample :
    ¬ transientOpInv (set_runtime_op initState "starting" none) := by
  decide

/-- C9 amended: set_runtime_op preserves the TransientOp invariant whenever
the call either normalizes to the stopped op or supplies a non-empty lab id;
a non-stopped op together with a missing or empty lab id is the one family of
argument combinations that breaks it. -/
theorem C9_amended_invariant (s : SysState) (op : String) (lid : Option String)
    (hs : transientOpInv s)
    (h : normalizeOp op = "stopped" ∨ optTruthy lid = true) :
    transientOpInv (set_runtime_op s op lid) := by
  rw [set_runtime_op]
  split
  · exact hs
  · intro hop
    simp only at hop
    rcases h with hstop | htr
    · exact absurd hstop hop
    · cases lid with
      | none => simp [optTruthy] at htr
      | some l => simp [htr, hop]

/-- Witness for the amended C9 at a concrete call. -/
theorem C9_amended_invariant_witness :
    transientOpInv initState ∧
    (normalizeOp "starting" = "stopped" ∨ optTruthy (some "a") = true) ∧
    transientOpInv (set_runtime_op initState "starting" (some "a")) :=
  ⟨by decide, by decide,
   C9_amended_invariant initState "starting" (some "a") (by decide) (by decide)⟩

/-- C2 counterexample: start lab a successfully, then stop it and let the
tear-down report failure.  Afterwards the transient op is stopped but the
Runtime Lock still holds lab a, so the lock is not cleared unconditionally. -/
theorem C2_counterexample :
    (run [Event.startReq "a" false, Event.startDone "a" true,
          Event.stopReq "a", Event.stopDone "a" false]).runtimeOp = "stopped" ∧
    (run [Event.startReq "a" false, Event.startDone "a" true,
          Event.stopReq "a", Event.stopDone "a" false]).persistedLock = some "a" ∧
    (run [Event.startReq "a" false, Event.startDone "a" true,
          Event.stopReq "a", Event.stopDone "a" false]).runningLabId = some "a" := by
  decide

theorem opWF_of_fields (s : SysState) (op : String) (l : String)
    (hop : op ∈ ["starting", "stopping", "resetting", "running", "stopped"])
    (hl : l ≠ "") :
    opWF { s with runtimeOp := op, runtimeOpLabId := some l } = true := by
  simp [opWF, hl]
  simpa using hop

/-- Resolution of set_running_lab_id to None while the op is stopping: both
the lock and the op resolve. -/
theorem set_running_lab_id_none_stopping (t : SysState) (ht : t.runtimeOp = "stopping")
    (hne : (none : Option String) ≠ t.runningLabId) :
    set_running_lab_id t none =
      { t with runningLabId := none, persistedLock := none,
               runtimeOp := "stopped", runtimeOpLabId := none } := by
  have hcur : pyLower (pyStrip t.runtimeOp) = "stopping" := by rw [ht]; decide
  simp [set_running_lab_id, hne, hcur, optTruthy, set_runtime_op_none_arg,
        normalizeOp_stopped]

/-- Resolution of set_running_lab_id to None while the op is starting: the
lock clears but the op pair is left alone (neither resolution branch fires). -/
theorem set_running_lab_id_none_starting (t : SysState) (ht : t.runtimeOp = "starting")
    (hne : (none : Option String) ≠ t.runningLabId) :
    set_running_lab_id t none =
      { t with runningLabId := none, persistedLock := none } := by
  have hcur : pyLower (pyStrip t.runtimeOp) = "starting" := by rw [ht]; decide
  simp [set_running_lab_id, hne, hcur, optTruthy, transientOps]

/-- C2 amended: on completion of a stop the transient op resolves to stopped
unconditionally (success or failure), but the Runtime Lock is cleared only
when the tear-down reported success; on reported failure the lock keeps its
previous value. -/
theorem C2_stop_completion (s : SysState) (lab : String) (ok : Bool)
    (hlab : lab ≠ "") (hWF : opWF s = true)
    (hNoOther : s.runtimeOp ∈ transientOps →
      s.runtimeOpLabId = none ∨ s.runtimeOpLabId = some lab)
    (hSync : s.persistedLock = s.runningLabId) :
    (on_stop_done (on_stop s lab) lab ok).runtimeOp = "stopped" ∧
    (on_stop_done (on_stop s lab) lab ok).runtimeOpLabId = none ∧
    (ok = true → (on_stop_done (on_stop s lab) lab ok).persistedLock = none ∧
      (on_stop_done (on_stop s lab) lab ok).runningLabId = none) ∧
    (ok = false →
      (on_stop_done (on_stop s lab) lab ok).persistedLock = s.persistedLock) := by
  have h1 : on_stop s lab =
      { s with runtimeOp := "stopping", runtimeOpLabId := some lab } := by
    rw [on_stop, set_op_state_broadcast, if_neg hlab,
        set_runtime_op_pass s "stopping" lab hlab hWF hNoOther, normalizeOp_stopping,
        if_neg (by decide : ¬ ("stopping" : String) = "stopped")]
  have hWF1 : opWF { s with runtimeOp := "stopping", runtimeOpLabId := some lab } = true :=
    opWF_of_fields s "stopping" lab (by decide) hlab
  have hlast : ∀ t : SysState, opWF t = true →
      (t.runtimeOp ∈ transientOps → t.runtimeOpLabId = none ∨ t.runtimeOpLabId = some lab) →
      set_op_state_broadcast t "stopped" lab =
        { t with runtimeOp := "stopped", runtimeOpLabId := none } := by
    intro t hWFt hfreet
    rw [set_op_state_broadcast, if_neg hlab,
        set_runtime_op_pass t "stopped" lab hlab hWFt hfreet, normalizeOp_stopped,
        if_pos rfl]
  rw [on_stop_done, h1]
  cases ok with
  | false =>
    rw [if_neg (by decide : ¬ (false = true))]
    rw [hlast _ hWF1 (fun _ => Or.inr rfl)]
    exact ⟨rfl, rfl, by simp, fun _ => rfl⟩
  | true =>
    rw [if_pos rfl]
    by_cases hrn : (none : Option String) =
        ({ s with runtimeOp := "stopping", runtimeOpLabId := some lab } : SysState).runningLabId
    · have h2 : set_running_lab_id
          { s with runtimeOp := "stopping", runtimeOpLabId := some lab } none =
          { s with runtimeOp := "stopping", runtimeOpLabId := some lab } := by
        rw [set_running_lab_id, if_pos hrn]
      rw [h2, hlast _ hWF1 (fun _ => Or.inr rfl)]
      refine ⟨rfl, rfl, ?_, by simp⟩
      intro _
      have hsn : s.runningLabId = none := hrn.symm
      exact ⟨by show s.persistedLock = none; rw [hSync, hsn], hsn⟩
    · rw [set_running_lab_id_none_stopping _ rfl hrn]
      rw [hlast _ (by simp [opWF])
        (fun h => absurd h (by decide : ¬ ("stopped" : String) ∈ transientOps))]
      exact ⟨rfl, rfl, fun _ => ⟨rfl, rfl⟩, by simp⟩

/-- Witness for the amended C2 at a concrete run: lab a running, stop with a
successful tear-down. -/
theorem C2_stop_completion_witness :
    (on_stop_done (on_stop (run [Event.startReq "a" false, Event.startDone "a" true])
        "a") "a" true).runtimeOp = "stopped" ∧
    (on_stop_done (on_stop (run [Event.startReq "a" false, Event.startDone "a" true])
        "a") "a" true).runtimeOpLabId = none ∧
    (true = true →
      (on_stop_done (on_stop (run [Event.startReq "a" false, Event.startDone "a" true])
          "a") "a" true).persistedLock = none ∧
      (on_stop_done (on_stop (run [Event.startReq "a" false, Event.startDone "a" true])
          "a") "a" true).runningLabId = none) ∧
    (true = false →
      (on_stop_done (on_stop (run [Event.startReq "a" false, Event.startDone "a" true])
          "a") "a" true).persistedLock =
        (run [Event.startReq "a" false, Event.startDone "a" true]).persistedLock) :=
  C2_stop_completion (run [Event.startReq "a" false, Event.startDone "a" true])
    "a" true (by decide) (by decide) (by decide) (by decide)

/-- Broadcasting op stopped for lab when no other lab holds a transient op
resolves the pair to stopped with no lab. -/
theorem set_op_state_broadcast_stopped (t : SysState) (lab : String) (hlab : lab ≠ "")
    (hWFt : opWF t = true)
    (hfreet : t.runtimeOp ∈ transientOps →
      t.runtimeOpLabId = none ∨ t.runtimeOpLabId = some lab) :
    set_op_state_broadcast t "stopped" lab =
      { t with runtimeOp := "stopped", runtimeOpLabId := none } := by
  rw [set_op_state_broadcast, if_neg hlab,
      set_runtime_op_pass t "stopped" lab hlab hWFt hfreet, normalizeOp_stopped,
      if_pos rfl]

/-- When no transient op is in flight, runtime_op_for never reports a
transient op either. -/
theorem runtime_op_for_not_transient (s : SysState) (lid : Option String)
    (h : s.runtimeOp ∉ transientOps) : runtime_op_for s lid ∉ transientOps := by
  rw [runtime_op_for]
  split_ifs with h1 h2
  · exact absurd h1.2.2.2 h
  · decide
  · decide

/-- C3: under the start preconditions (no transient op held by any lab and a
Runtime Lock that is empty or already owned by this lab), the start request
is accepted, and when the bring-up then reports failure the completion
callback leaves the Runtime Lock empty and the transient op stopped with no
lab. -/
theorem C3_start_failure (s : SysState) (lab : String)
    (hlab : lab ≠ "") (hWF : opWF s = true)
    (hnb : s.runtimeOp ∈ transientOps → s.runtimeOpLabId = none)
    (hlock : s.persistedLock = none ∨ s.persistedLock = some lab) :
    (on_start s lab false).2 = StartResult.launched ∧
    (on_start_done (on_start s lab false).1 lab false).persistedLock = none ∧
    (on_start_done (on_start s lab false).1 lab false).runtimeOp = "stopped" ∧
    (on_start_done (on_start s lab false).1 lab false).runtimeOpLabId = none := by
  have hWFs : opWF { s with persistedLock := some lab } = true := by
    simpa [opWF] using hWF
  have hset : set_op_state_broadcast { s with persistedLock := some lab } "starting" lab =
      { s with persistedLock := some lab, runtimeOp := "starting",
               runtimeOpLabId := some lab } := by
    rw [set_op_state_broadcast, if_neg hlab,
        set_runtime_op_pass _ "starting" lab hlab hWFs (fun hmem => Or.inl (hnb hmem)),
        normalizeOp_starting, if_neg (by decide : ¬ ("starting" : String) = "stopped")]
  have h1 : on_start s lab false =
      (set_op_state_broadcast { s with persistedLock := some lab } "starting" lab,
       StartResult.launched) := by
    rcases hlock with hpl | hpl <;>
      cases hx : s.runtimeOpLabId with
      | none => simp [on_start, hx, hpl, optTruthy, lidStr, hlab, Bool.false_eq_true]
      | some x =>
        have hxne : x ≠ "" := opWF_labId s x hWF hx
        have hnt : s.runtimeOp ∉ transientOps := fun hmem => by
          have h := hnb hmem; rw [hx] at h; cases h
        have hfor : runtime_op_for s (some x) ∉ transientOps :=
          runtime_op_for_not_transient s (some x) hnt
        simp [on_start, hx, hpl, optTruthy, lidStr, hlab, hxne, hfor, Bool.false_eq_true]
  rw [h1, hset]
  refine ⟨rfl, ?_⟩
  have h2 : on_start_done
      ({ s with persistedLock := some lab, runtimeOp := "starting",
                runtimeOpLabId := some lab } : SysState) lab false =
      set_op_state_broadcast
        (set_running_lab_id
          { s with persistedLock := none, runtimeOp := "starting",
                   runtimeOpLabId := some lab } none) "stopped" lab := by
    rw [on_start_done, if_neg (by decide : ¬ (false = true)), if_pos rfl]
  rw [h2]
  by_cases hrn : (none : Option String) = s.runningLabId
  · have h3 : set_running_lab_id
        { s with persistedLock := none, runtimeOp := "starting",
                 runtimeOpLabId := some lab } none =
        { s with persistedLock := none, runtimeOp := "starting",
                 runtimeOpLabId := some lab } := by
      rw [set_running_lab_id, if_pos hrn]
    rw [h3, set_op_state_broadcast_stopped _ lab hlab (by simp [opWF, hlab])
        (fun _ => Or.inr rfl)]
    exact ⟨rfl, rfl, rfl⟩
  · rw [set_running_lab_id_none_starting
        { s with persistedLock := none, runtimeOp := "starting",
                 runtimeOpLabId := some lab } rfl hrn,
        set_op_state_broadcast_stopped _ lab hlab (by simp [opWF, hlab])
        (fun _ => Or.inr rfl)]
    exact ⟨rfl, rfl, rfl⟩

/-- Witness for C3 at a concrete launch from the initial state. -/
theorem C3_start_failure_witness :
    (on_start initState "a" false).2 = StartResult.launched ∧
    (on_start_done (on_start initState "a" false).1 "a" false).persistedLock = none ∧
    (on_start_done (on_start initState "a" false).1 "a" false).runtimeOp = "stopped" ∧
    (on_start_done (on_start initState "a" false).1 "a" false).runtimeOpLabId = none :=
  C3_start_failure initState "a" (by decide) (by decide) (by decide) (by decide)

/-- C7 counterexample: a rejected flag submission from the initial state (no
bring-up ever ran, let alone succeeded) still performs a mark-started write. -/
theorem C7_counterexample :
    (submit_flag_app initState "lab1" "WRONG" false "Invalid flag.").1.progLog =
      [PEvent.markStarted "lab1", PEvent.submitFlagEv "lab1" false] ∧
    (submit_flag_app initState "lab1" "WRONG" false "Invalid flag.").2 =
      (false, "Invalid flag.") := by
  decide

theorem set_running_lab_id_none_progLog (s : SysState) :
    (set_running_lab_id s none).progLog = s.progLog := by
  rw [set_running_lab_id]
  split
  · rfl
  · simp only [optTruthy, Bool.false_eq_true, if_false]
    split_ifs <;> simp_all [set_runtime_op_progLog]

theorem set_running_lab_id_some_progLog (s : SysState) (l : String) (hl : l ≠ "") :
    (set_running_lab_id s (some l)).progLog =
      if (some l : Option String) = s.runningLabId then s.progLog
      else s.progLog ++ [PEvent.markStarted l] := by
  rw [set_running_lab_id]
  by_cases h : (some l : Option String) = s.runningLabId
  · rw [if_pos h, if_pos h]
  · rw [if_neg h, if_neg h]
    have hopt : optTruthy (some l) = true := by simp [optTruthy, hl]
    simp only [hopt, lidStr]
    split_ifs <;> simp_all [set_runtime_op_progLog]

theorem set_op_state_broadcast_progLog (t : SysState) (st lab : String) :
    (set_op_state_broadcast t st lab).progLog = t.progLog := by
  rw [set_op_state_broadcast, set_runtime_op_progLog]

/-- C7 amended: the mark-started write is performed on every successful
bring-up completion (once directly, once more through set_running_lab_id
unless the lab was already the running one) and never on a failed bring-up;
but it is also performed by submit_flag for every non-empty flag submission,
accepted or rejected, so successful bring-up is not its only trigger. -/
theorem C7_mark_started_paths (s : SysState) (lab flag err : String) (serverOk : Bool)
    (hlab : lab ≠ "") (hflag : pyStrip flag ≠ "") :
    ((on_start_done s lab true).progLog =
      if (some lab : Option String) = s.runningLabId then
        s.progLog ++ [PEvent.markStarted lab]
      else s.progLog ++ [PEvent.markStarted lab] ++ [PEvent.markStarted lab]) ∧
    ((on_start_done s lab false).progLog = s.progLog) ∧
    ((submit_flag_app s lab flag serverOk err).1.progLog =
      s.progLog ++ [PEvent.markStarted lab, PEvent.submitFlagEv lab serverOk]) := by
  refine ⟨?_, ?_, ?_⟩
  · rw [on_start_done, if_pos rfl, set_op_state_broadcast_progLog,
        set_running_lab_id_some_progLog _ lab hlab]
  · rw [on_start_done, if_neg (by decide : ¬ (false = true)),
        set_op_state_broadcast_progLog, set_running_lab_id_none_progLog]
    split_ifs <;> rfl
  · cases serverOk <;> simp [submit_flag_app, hflag]

/-- Witness for the amended C7 at concrete inputs. -/
theorem C7_mark_started_paths_witness :
    ((on_start_done initState "a" true).progLog =
      if (some "a" : Option String) = initState.runningLabId then
        initState.progLog ++ [PEvent.markStarted "a"]
      else initState.progLog ++ [PEvent.markStarted "a"] ++ [PEvent.markStarted "a"]) ∧
    ((on_start_done initState "a" false).progLog = initState.progLog) ∧
    ((submit_flag_app initState "a" "flagvalue" true "").1.progLog =
      initState.progLog ++ [PEvent.markStarted "a", PEvent.submitFlagEv "a" true]) :=
  C7_mark_started_paths initState "a" "flagvalue" "" true (by decide) (by decide)

theorem solvePollGo_le (g : Nat → Except Unit (Option String)) :
    ∀ (fuel i : Nat) (d : ℚ), (solvePollGo g i fuel d).1 ≤ fuel := by
  intro fuel
  induction fuel with
  | zero => intro i d; simp [solvePollGo]
  | succ n ih =>
    intro i d
    simp only [solvePollGo]
    split
    · simp
    · have h := ih (i + 1) (solveDelayNext d)
      simpa using Nat.succ_le_succ h

theorem statsPollGo_le (expect : Bool) (prev : Int) (g : Nat → Except Unit Int) :
    ∀ (fuel i : Nat) (d : ℚ), (statsPollGo expect prev g i fuel d).1 ≤ fuel := by
  intro fuel
  induction fuel with
  | zero => intro i d; simp [statsPollGo]
  | succ n ih =>
    intro i d
    simp only [statsPollGo]
    cases g i with
    | error e => simp
    | ok v =>
      dsimp only
      split_ifs with hc
      · simp
      · have h := ih (i + 1) (statsDelayNext d)
        simpa using Nat.succ_le_succ h

theorem solvePollGo_never (g : Nat → Except Unit (Option String))
    (hg : ∀ i, (match g i with
                | Except.ok v => optTruthy v
                | Except.error _ => false) = false) :
    ∀ (fuel i : Nat) (d : ℚ),
      solvePollGo g i fuel d = (fuel, solveBackList fuel d, false) := by
  intro fuel
  induction fuel with
  | zero => intro i d; rfl
  | succ n ih =>
    intro i d
    simp only [solvePollGo, hg i, Bool.false_eq_true, if_false, ih (i + 1), solveBackList]

theorem solveDelaySeq_bounds (n : Nat) :
    3/20 ≤ solveDelaySeq n ∧ solveDelaySeq n ≤ 6/5 := by
  induction n with
  | zero => constructor <;> norm_num [solveDelaySeq]
  | succ k ih =>
    rcases ih with ⟨h1, h2⟩
    constructor
    · rw [solveDelaySeq, solveDelayNext]
      apply le_min
      · norm_num
      · nlinarith
    · rw [solveDelaySeq, solveDelayNext]
      exact min_le_left _ _

theorem statsDelaySeq_bounds (n : Nat) :
    9/50 ≤ statsDelaySeq n ∧ statsDelaySeq n ≤ 1 := by
  induction n with
  | zero => constructor <;> norm_num [statsDelaySeq]
  | succ k ih =>
    rcases ih with ⟨h1, h2⟩
    constructor
    · rw [statsDelaySeq, statsDelayNext]
      apply le_min
      · norm_num
      · nlinarith
    · rw [statsDelaySeq, statsDelayNext]
      exact min_le_left _ _

/-- C4: both convergence polls perform at most their fixed attempt budget of
forced reads (6 for the post-solve progress poll, 4 or 2 for the stats poll),
always terminate, and when the predicate never becomes true the solve poll
runs all 6 reads and returns normally (no error value, convergence flag
false) with the documented exponential backoff sleeps: base 0.15s, factor
1.7, cap 1.2s (stats poll: base 0.18s, factor 1.8, cap 1.0s). -/
theorem C4_convergence_polling (fetch : Nat → Except Unit (Option String))
    (fetchS : Nat → Except Unit Int) (prev : Int) (expect : Bool)
    (hnever : ∀ i, (match fetch i with
                    | Except.ok v => optTruthy v
                    | Except.error _ => false) = false) :
    (∀ g : Nat → Except Unit (Option String), (solvePoll g).1 ≤ 6) ∧
    (∀ (g : Nat → Except Unit Int) (e : Bool) (p : Int),
      (statsPoll e p g).1 ≤ statsAttempts e) ∧
    statsAttempts expect ≤ 4 ∧
    solvePoll fetch = (6, (List.range 6).map solveDelaySeq, false) ∧
    (∀ n, 3/20 ≤ solveDelaySeq n ∧ solveDelaySeq n ≤ 6/5) ∧
    (∀ n, 9/50 ≤ statsDelaySeq n ∧ statsDelaySeq n ≤ 1) ∧
    (∀ n, solveDelaySeq (n + 1) = min (6/5) (solveDelaySeq n * (17/10))) ∧
    (∀ n, statsDelaySeq (n + 1) = min 1 (statsDelaySeq n * (9/5))) ∧
    ((statsPoll expect prev fetchS).1 ≥ 1 ∨ statsAttempts expect = 0) := by
  refine ⟨fun g => solvePollGo_le g 6 0 (3/20),
          fun g e p => statsPollGo_le e p g (statsAttempts e) 0 (9/50),
          ?_, ?_, solveDelaySeq_bounds, statsDelaySeq_bounds,
          fun n => rfl, fun n => rfl, ?_⟩
  · cases expect <;> decide
  · rw [solvePoll, solvePollGo_never fetch hnever 6 0 (3/20)]
    norm_num [solveBackList, solveDelaySeq, solveDelayNext, List.range, List.range.loop]
  · left
    cases hS : fetchS 0 with
    | error e =>
      cases expect <;>
        simp [statsPoll, statsAttempts, statsPollGo, hS]
    | ok v =>
      cases expect <;>
        · simp only [statsPoll, statsAttempts, statsPollGo, hS]
          split <;> simp

/-- Witness for C4 with a fetch that never reports the solve. -/
theorem C4_convergence_polling_witness :
    (∀ g : Nat → Except Unit (Option String), (solvePoll g).1 ≤ 6) ∧
    (∀ (g : Nat → Except Unit Int) (e : Bool) (p : Int),
      (statsPoll e p g).1 ≤ statsAttempts e) ∧
    statsAttempts true ≤ 4 ∧
    solvePoll (fun _ => Except.ok none) = (6, (List.range 6).map solveDelaySeq, false) ∧
    (∀ n, 3/20 ≤ solveDelaySeq n ∧ solveDelaySeq n ≤ 6/5) ∧
    (∀ n, 9/50 ≤ statsDelaySeq n ∧ statsDelaySeq n ≤ 1) ∧
    (∀ n, solveDelaySeq (n + 1) = min (6/5) (solveDelaySeq n * (17/10))) ∧
    (∀ n, statsDelaySeq (n + 1) = min 1 (statsDelaySeq n * (9/5))) ∧
    ((statsPoll true 0 (fun _ => Except.ok 0)).1 ≥ 1 ∨ statsAttempts true = 0) :=
  C4_convergence_polling (fun _ => Except.ok none) (fun _ => Except.ok 0) 0 true
    (fun _ => rfl)

theorem find_notes_popped (xs : List (String × (ℚ × String))) (l : String) :
    (xs.filter (fun p => p.1 != l)).find? (fun p => p.1 == l) = none := by
  induction xs with
  | nil => rfl
  | cons x xs ih =>
    by_cases hx : x.1 = l
    · simp [List.filter_cons, hx, ih]
    · simp [List.filter_cons, hx, List.find?_cons, ih]

/-- C5: every write path of the Progress Store funnels into _invalidate for
its lab (mark_started, mark_attempt, mark_solved, set_notes; an accepted
submit_flag likewise), and after _invalidate the next read of the progress
map, the summary or the device stats performs a remote fetch for any read
time (the TTL window cannot serve them since the cached values are gone),
while the notes entry of the written lab is popped. -/
theorem C5_writes_invalidate (c : Cache) (now tsN : ℚ) (remote : Blob)
    (rs : DeviceStats) (l txt flag err : String)
    (hl : pyStrip l ≠ "") (hflag : pyStrip flag ≠ "") :
    mark_started c l = _invalidate c (some l) ∧
    mark_attempt c l = _invalidate c (some l) ∧
    mark_solved c l = _invalidate c (some l) ∧
    set_notes c l txt tsN =
      _invalidate
        { c with notes := (l, (tsN, txt)) :: c.notes.filter (fun p => p.1 != l) }
        (some l) ∧
    (submit_flag c l flag true err).1 = _invalidate c (some (pyStrip l)) ∧
    (∀ (c1 : Cache) (lb : Option String),
      (get_progress_map (_invalidate c1 lb) false now false remote).2.2 = true) ∧
    (∀ (c1 : Cache) (lb : Option String),
      (get_summary (_invalidate c1 lb) now false remote).2.2 = true) ∧
    (∀ (c1 : Cache) (lb : Option String),
      (get_device_stats (_invalidate c1 lb) false now false rs).2.2 = true) ∧
    (∀ (c1 : Cache) (k : String),
      (_invalidate c1 (some k)).notes.find? (fun p => p.1 == k) = none) := by
  refine ⟨rfl, rfl, rfl, rfl, ?_, ?_, ?_, ?_, ?_⟩
  · simp [submit_flag, hl, hflag]
  · intro c1 lb
    simp [get_progress_map, _fetch_progress_blob, _invalidate]
  · intro c1 lb
    simp [get_summary, _fetch_progress_blob, _invalidate]
  · intro c1 lb
    simp [get_device_stats, _invalidate]
  · intro c1 k
    exact find_notes_popped c1.notes k

/-- Witness for C5 on the empty cache. -/
theorem C5_writes_invalidate_witness :
    mark_started sampleCache "a" = _invalidate sampleCache (some "a") ∧
    mark_attempt sampleCache "a" = _invalidate sampleCache (some "a") ∧
    mark_solved sampleCache "a" = _invalidate sampleCache (some "a") ∧
    set_notes sampleCache "a" "note" 0 =
      _invalidate
        { sampleCache with
          notes := ("a", ((0 : ℚ), "note")) ::
            sampleCache.notes.filter (fun p => p.1 != "a") }
        (some "a") ∧
    (submit_flag sampleCache "a" "FLAG" true "").1 =
      _invalidate sampleCache (some (pyStrip "a")) ∧
    (∀ (c1 : Cache) (lb : Option String),
      (get_progress_map (_invalidate c1 lb) false 5 false emptyBlob).2.2 = true) ∧
    (∀ (c1 : Cache) (lb : Option String),
      (get_summary (_invalidate c1 lb) 5 false emptyBlob).2.2 = true) ∧
    (∀ (c1 : Cache) (lb : Option String),
      (get_device_stats (_invalidate c1 lb) false 5 false defaultStats).2.2 = true) ∧
    (∀ (c1 : Cache) (k : String),
      (_invalidate c1 (some k)).notes.find? (fun p => p.1 == k) = none) :=
  C5_writes_invalidate sampleCache 5 0 emptyBlob defaultStats "a" "note" "FLAG" ""
    (by decide) (by decide)

/-- C6: the Access Gate policy.  A logged-in user is never gated; otherwise
the gate equals the device-linkage answer, so locked = linked AND NOT
authenticated; an unlinked device is never locked; and a connectivity error
during the linkage check fails open (gate false, cache untouched).  The
navigation layer computes locked the same way, so locked is false whenever
linked is false. -/
theorem C6_access_gate (st : Settings) (c : Cache) (now : ℚ) (resp : LinkResp)
    (b : Bool) (c2 : Cache) :
    (is_logged_in st = true → (requires_login_gate st c false now resp).1 = false) ∧
    (is_device_linked c false now resp = Except.ok (b, c2) →
      (requires_login_gate st c false now resp).1 = (b && !(is_logged_in st))) ∧
    (is_device_linked c false now resp = Except.error () →
      (requires_login_gate st c false now resp).1 = false ∧
      (requires_login_gate st c false now resp).2 = c) ∧
    (∀ li : Bool, navigate_locked false li = false) := by
  refine ⟨?_, ?_, ?_, fun li => rfl⟩
  · intro hli
    simp [requires_login_gate, hli]
  · intro hok
    by_cases hli : is_logged_in st = true
    · simp [requires_login_gate, hli]
    · have hli' : is_logged_in st = false := by
        cases h : is_logged_in st
        · rfl
        · exact absurd h hli
      simp [requires_login_gate, hli', hok]
  · intro herr
    by_cases hli : is_logged_in st = true
    · simp [requires_login_gate, hli]
    · have hli' : is_logged_in st = false := by
        cases h : is_logged_in st
        · rfl
        · exact absurd h hli
      simp [requires_login_gate, hli', herr]

/-- Witness for C6: a logged-out device whose linkage check answers
not-linked. -/
theorem C6_access_gate_witness :
    (is_logged_in { sampleSettings with access_token := "" } = true →
      (requires_login_gate { sampleSettings with access_token := "" } sampleCache
        false 5 (LinkResp.okResp false)).1 = false) ∧
    (is_device_linked sampleCache false 5 (LinkResp.okResp false) =
        Except.ok (false, { sampleCache with deviceLinked := (5, some false) }) →
      (requires_login_gate { sampleSettings with access_token := "" } sampleCache
        false 5 (LinkResp.okResp false)).1 =
        (false && !(is_logged_in { sampleSettings with access_token := "" }))) ∧
    (is_device_linked sampleCache false 5 (LinkResp.okResp false) =
        Except.error () →
      (requires_login_gate { sampleSettings with access_token := "" } sampleCache
        false 5 (LinkResp.okResp false)).1 = false ∧
      (requires_login_gate { sampleSettings with access_token := "" } sampleCache
        false 5 (LinkResp.okResp false)).2 = sampleCache) ∧
    (∀ li : Bool, navigate_locked false li = false) :=
  C6_access_gate { sampleSettings with access_token := "" } sampleCache 5
    (LinkResp.okResp false) false
    { sampleCache with deviceLinked := (5, some false) }

/-- C8: whichever authenticated call receives an HTTP 401, _request_json
clears the cached auth state (tokens blanked, so is_logged_in is false
afterwards) and invalidates the dependent caches, then surfaces the error;
the method and url play no role in this handling. -/
theorem C8_auth_cleared_on_401 (st : Settings) (c : Cache) (method url : String) :
    is_logged_in
      (_request_json st c method url true (ReqOutcome.httpError 401)).2.1 = false ∧
    (_request_json st c method url true (ReqOutcome.httpError 401)).2.1.access_token
      = "" ∧
    (_request_json st c method url true (ReqOutcome.httpError 401)).2.1.refresh_token
      = "" ∧
    (_request_json st c method url true (ReqOutcome.httpError 401)).2.2.progressBlob
      = (0, none) ∧
    (_request_json st c method url true (ReqOutcome.httpError 401)).2.2.progressMap
      = (0, none) ∧
    (_request_json st c method url true (ReqOutcome.httpError 401)).2.2.summary
      = (0, none) ∧
    (_request_json st c method url true (ReqOutcome.httpError 401)).2.2.stats
      = (0, none) ∧
    (_request_json st c method url true (ReqOutcome.httpError 401)).2.2.recent
      = [] ∧
    (_request_json st c method url true (ReqOutcome.httpError 401)).1 =
      Except.error (ReqOutcome.httpError 401) := by
  refine ⟨?_, rfl, rfl, rfl, rfl, rfl, rfl, rfl, rfl⟩
  simp [_request_json, _clear_auth_state, is_logged_in, pyStrip]

/-- Witness for C8 at a concrete logged-in state. -/
theorem C8_auth_cleared_on_401_witness :
    is_logged_in
      (_request_json sampleSettings sampleCache "GET" "/v1/auth/me" true
        (ReqOutcome.httpError 401)).2.1 = false ∧
    (_request_json sampleSettings sampleCache "GET" "/v1/auth/me" true
      (ReqOutcome.httpError 401)).2.1.access_token = "" ∧
    (_request_json sampleSettings sampleCache "GET" "/v1/auth/me" true
      (ReqOutcome.httpError 401)).2.1.refresh_token = "" ∧
    (_request_json sampleSettings sampleCache "GET" "/v1/auth/me" true
      (ReqOutcome.httpError 401)).2.2.progressBlob = (0, none) ∧
    (_request_json sampleSettings sampleCache "GET" "/v1/auth/me" true
      (ReqOutcome.httpError 401)).2.2.progressMap = (0, none) ∧
    (_request_json sampleSettings sampleCache "GET" "/v1/auth/me" true
      (ReqOutcome.httpError 401)).2.2.summary = (0, none) ∧
    (_request_json sampleSettings sampleCache "GET" "/v1/auth/me" true
      (ReqOutcome.httpError 401)).2.2.stats = (0, none) ∧
    (_request_json sampleSettings sampleCache "GET" "/v1/auth/me" true
      (ReqOutcome.httpError 401)).2.2.recent = [] ∧
    (_request_json sampleSettings sampleCache "GET" "/v1/auth/me" true
      (ReqOutcome.httpError 401)).1 =
      Except.error (ReqOutcome.httpError 401) :=
  C8_auth_cleared_on_401 sampleSettings sampleCache "GET" "/v1/auth/me"

theorem heap_get_alloc_lt (h : Heap) (o : Obj) (b : Nat) (hb : b < h.next) :
    (Heap.alloc h o).2.get b = h.get b := by
  have hne : h.next ≠ b := Nat.ne_of_gt hb
  simp [Heap.get, Heap.alloc, List.find?_cons, hne]

theorem heap_get_alloc_self (h : Heap) (o : Obj) :
    (Heap.alloc h o).2.get h.next = some o := by
  simp [Heap.get, Heap.alloc, List.find?_cons]

theorem find_map_mut (a b : Nat) (o : Obj) (hne : b ≠ a) :
    ∀ l : List (Nat × Obj),
      ((l.map (fun p => if p.1 == a then (a, o) else p)).find?
          (fun p => p.1 == b)).map (fun p => p.2)
      = (l.find? (fun p => p.1 == b)).map (fun p => p.2) := by
  have hab : a ≠ b := fun h' => hne h'.symm
  have h1 : ((a : Nat) == b) = false := by simp [hab]
  intro l
  induction l with
  | nil => rfl
  | cons q qs ih =>
    by_cases hq : q.1 = a
    · have hq1 : (q.1 == a) = true := by simp [hq]
      have h2 : (q.1 == b) = false := by simp [hq, hab]
      simp only [List.map_cons, List.find?_cons, hq1, if_true, h1, h2]
      exact ih
    · have hq1 : (q.1 == a) = false := by simp [hq]
      simp only [List.map_cons, List.find?_cons, hq1, Bool.false_eq_true, if_false]
      by_cases hqb : q.1 = b
      · have h2 : (q.1 == b) = true := by simp [hqb]
        simp only [h2, Option.map_some]
      · have h2 : (q.1 == b) = false := by simp [hqb]
        simp only [h2]
        exact ih

theorem heap_get_mut_ne (h : Heap) (a b : Nat) (o : Obj) (hne : b ≠ a) :
    (Heap.mut h a o).get b = h.get b := by
  simp only [Heap.get, Heap.mut]
  exact find_map_mut a b o hne h.objs

theorem heap_mut_next (h : Heap) (a : Nat) (o : Obj) : (Heap.mut h a o).next = h.next :=
  rfl

theorem copyRows_next_le (m : List (String × Nat)) :
    ∀ h : Heap, h.next ≤ (copyRows h m).2.next := by
  induction m with
  | nil => intro h; exact le_refl _
  | cons q rest ih =>
    intro h
    obtain ⟨k, a⟩ := q
    simp only [copyRows]
    calc h.next ≤ (Heap.alloc h (Obj.rowObj (readRow h a))).2.next := Nat.le_succ _
      _ ≤ _ := ih _

theorem copyRows_get_lt (m : List (String × Nat)) :
    ∀ (h : Heap) (b : Nat), b < h.next → (copyRows h m).2.get b = h.get b := by
  induction m with
  | nil => intro h b _; rfl
  | cons q rest ih =>
    intro h b hb
    obtain ⟨k, a⟩ := q
    simp only [copyRows]
    rw [ih _ b (lt_trans hb (Nat.lt_succ_self _)), heap_get_alloc_lt _ _ b hb]

theorem copyRows_addrs (m : List (String × Nat)) :
    ∀ (h : Heap) (p : String × Nat), p ∈ (copyRows h m).1 →
      h.next ≤ p.2 ∧ p.2 < (copyRows h m).2.next := by
  induction m with
  | nil => intro h p hp; simp [copyRows] at hp
  | cons q rest ih =>
    intro h p hp
    obtain ⟨k, a⟩ := q
    simp only [copyRows, List.mem_cons] at hp ⊢
    rcases hp with rfl | hp
    · constructor
      · exact le_refl _
      · calc h.next < (Heap.alloc h (Obj.rowObj (readRow h a))).2.next :=
            Nat.lt_succ_self _
          _ ≤ _ := copyRows_next_le rest _
    · have hih := ih (Heap.alloc h (Obj.rowObj (readRow h a))).2 p hp
      exact ⟨le_trans (Nat.le_succ _) hih.1, hih.2⟩

theorem copyRows_values (m : List (String × Nat)) :
    ∀ h : Heap, (∀ p ∈ m, p.2 < h.next) →
      (copyRows h m).1.map (fun p => (p.1, readRow (copyRows h m).2 p.2)) =
        m.map (fun p => (p.1, readRow h p.2)) := by
  induction m with
  | nil => intro h _; rfl
  | cons q rest ih =>
    intro h hm
    obtain ⟨k, a⟩ := q
    have ha : a < h.next := hm (k, a) (List.mem_cons_self _ _)
    simp only [copyRows, List.map_cons, List.cons.injEq]
    constructor
    · generalize readRow h a = r0
      have hget : (copyRows (Heap.alloc h (Obj.rowObj r0)).2 rest).2.get
          (Heap.alloc h (Obj.rowObj r0)).1 = some (Obj.rowObj r0) := by
        rw [copyRows_get_lt rest _ _ (Nat.lt_succ_self _)]
        exact heap_get_alloc_self h _
      simp [readRow, hget]
    · have hrest : ∀ p ∈ rest, p.2 < (Heap.alloc h (Obj.rowObj (readRow h a))).2.next :=
        fun p hp => lt_trans (hm p (List.mem_cons_of_mem _ hp)) (Nat.lt_succ_self _)
      rw [ih _ hrest]
      apply List.map_congr_left
      intro p hp
      have hp2 : p.2 < h.next := hm p (List.mem_cons_of_mem _ hp)
      rw [readRow, heap_get_alloc_lt _ _ _ hp2, readRow]

theorem allocRows_next_le (rows : List (String × Row)) :
    ∀ h : Heap, h.next ≤ (allocRows h rows).2.next := by
  induction rows with
  | nil => intro h; exact le_refl _
  | cons q rest ih =>
    intro h
    obtain ⟨k, r⟩ := q
    simp only [allocRows]
    calc h.next ≤ (Heap.alloc h (Obj.rowObj r)).2.next := Nat.le_succ _
      _ ≤ _ := ih _

theorem allocRows_get_lt (rows : List (String × Row)) :
    ∀ (h : Heap) (b : Nat), b < h.next → (allocRows h rows).2.get b = h.get b := by
  induction rows with
  | nil => intro h b _; rfl
  | cons q rest ih =>
    intro h b hb
    obtain ⟨k, r⟩ := q
    simp only [allocRows]
    rw [ih _ b (lt_trans hb (Nat.lt_succ_self _)), heap_get_alloc_lt _ _ b hb]

theorem allocRows_addrs (rows : List (String × Row)) :
    ∀ (h : Heap) (p : String × Nat), p ∈ (allocRows h rows).1 →
      h.next ≤ p.2 ∧ p.2 < (allocRows h rows).2.next := by
  induction rows with
  | nil => intro h p hp; simp [allocRows] at hp
  | cons q rest ih =>
    intro h p hp
    obtain ⟨k, r⟩ := q
    simp only [allocRows, List.mem_cons] at hp ⊢
    rcases hp with rfl | hp
    · constructor
      · exact le_refl _
      · calc h.next < (Heap.alloc h (Obj.rowObj r)).2.next := Nat.lt_succ_self _
          _ ≤ _ := allocRows_next_le rest _
    · have hih := ih (Heap.alloc h (Obj.rowObj r)).2 p hp
      exact ⟨le_trans (Nat.le_succ _) hih.1, hih.2⟩

theorem allocRows_values (rows : List (String × Row)) :
    ∀ h : Heap, (allocRows h rows).1.map (fun p => (p.1, readRow (allocRows h rows).2 p.2))
      = rows := by
  induction rows with
  | nil => intro h; rfl
  | cons q rest ih =>
    intro h
    obtain ⟨k, r⟩ := q
    have hget : (allocRows (Heap.alloc h (Obj.rowObj r)).2 rest).2.get
        (Heap.alloc h (Obj.rowObj r)).1 = some (Obj.rowObj r) := by
      rw [allocRows_get_lt rest _ _ (Nat.lt_succ_self _)]
      exact heap_get_alloc_self h _
    simp only [allocRows, List.map_cons, List.cons.injEq]
    exact ⟨by simp [readRow, hget], ih _⟩

theorem heap_get_alloc_fst (h : Heap) (o : Obj) :
    (Heap.alloc h o).2.get (Heap.alloc h o).1 = some o :=
  heap_get_alloc_self h o

theorem cacheWFb_below (h : Heap) (c : CacheH) (hWF : cacheWFb h c = true) :
    ∀ x ∈ cacheAddrs h c, x < h.next := by
  intro x hx
  have h2 := (Bool.and_eq_true _ _ |>.mp hWF).2
  rw [List.all_eq_true] at h2
  simpa using h2 x hx

/-- Spec of the heap-instrumented progress-map read: there is a bound B with
every cache-reachable address below it and every returned address at or above
it (so the returned dict and its rows are objects the cache never references),
and the returned values equal the value view the cache holds afterwards. -/
theorem get_progress_mapH_spec (h : Heap) (c : CacheH) (now : ℚ) (gated : Bool)
    (remote : Blob) (hWF : cacheWFb h c = true) :
    ∃ B : Nat,
      (∀ x ∈ cacheAddrs (get_progress_mapH h c false now gated remote).2.1
        (get_progress_mapH h c false now gated remote).2.2, x < B) ∧
      (∀ x ∈ retAddrs (get_progress_mapH h c false now gated remote).2.1
        (get_progress_mapH h c false now gated remote).1, B ≤ x) ∧
      mapValues (get_progress_mapH h c false now gated remote).2.1
        (get_progress_mapH h c false now gated remote).1 =
        (cacheView (get_progress_mapH h c false now gated remote).2.1
          (get_progress_mapH h c false now gated remote).2.2).1 := by
  have hbelow := cacheWFb_below h c hWF
  by_cases hcond : (!false && c.progressMap.2.isSome && freshB now c.progressMap.1 2) = true
  · -- cached path
    obtain ⟨am, ham⟩ : ∃ am, c.progressMap.2 = some am := by
      have hs := (Bool.and_eq_true _ _ |>.mp (Bool.and_eq_true _ _ |>.mp hcond).1).2
      exact Option.isSome_iff_exists.mp hs
    have hgetd : c.progressMap.2.getD 0 = am := by rw [ham]; rfl
    have ham_lt : am < h.next := by
      apply hbelow
      rw [cacheAddrs, ham]
      simp
    have hrows_lt : ∀ p ∈ readMap h am, p.2 < h.next := by
      intro p hp
      apply hbelow
      rw [cacheAddrs, ham]
      simp only [List.mem_append, List.mem_cons, List.mem_map]
      exact Or.inl (Or.inr ⟨p, hp, rfl⟩)
    have hr : get_progress_mapH h c false now gated remote =
        ((Heap.alloc (copyRows h (readMap h am)).2
            (Obj.mapObj (copyRows h (readMap h am)).1)).1,
         (Heap.alloc (copyRows h (readMap h am)).2
            (Obj.mapObj (copyRows h (readMap h am)).1)).2, c) := by
      rw [get_progress_mapH, if_pos hcond, hgetd]
    rw [hr]
    have hread : readMap
        (Heap.alloc (copyRows h (readMap h am)).2
          (Obj.mapObj (copyRows h (readMap h am)).1)).2 am = readMap h am := by
      rw [readMap, heap_get_alloc_lt _ _ am
            (lt_of_lt_of_le ham_lt (copyRows_next_le _ h)),
          copyRows_get_lt _ h am ham_lt, readMap]
    have hself : readMap
        (Heap.alloc (copyRows h (readMap h am)).2
          (Obj.mapObj (copyRows h (readMap h am)).1)).2
        (Heap.alloc (copyRows h (readMap h am)).2
          (Obj.mapObj (copyRows h (readMap h am)).1)).1 =
        (copyRows h (readMap h am)).1 := by
      rw [readMap, heap_get_alloc_fst]
    refine ⟨h.next, ?_, ?_, ?_⟩
    · intro x hx
      apply hbelow
      simp only [cacheAddrs, ham, hread] at hx ⊢
      exact hx
    · intro x hx
      simp only [retAddrs, hself, List.mem_cons, List.mem_map] at hx
      rcases hx with rfl | ⟨p, hp, rfl⟩
      · exact copyRows_next_le _ h
      · exact (copyRows_addrs _ h p hp).1
    · simp only [cacheView, ham]
      rw [mapValues, mapValues, hself, hread]
      have hleft : (copyRows h (readMap h am)).1.map
          (fun p => (p.1, readRow
            (Heap.alloc (copyRows h (readMap h am)).2
              (Obj.mapObj (copyRows h (readMap h am)).1)).2 p.2)) =
          (copyRows h (readMap h am)).1.map
            (fun p => (p.1, readRow (copyRows h (readMap h am)).2 p.2)) := by
        apply List.map_congr_left
        intro p hp
        rw [readRow, heap_get_alloc_lt _ _ p.2 (copyRows_addrs _ h p hp).2, readRow]
      have hright : (readMap h am).map
          (fun p => (p.1, readRow
            (Heap.alloc (copyRows h (readMap h am)).2
              (Obj.mapObj (copyRows h (readMap h am)).1)).2 p.2)) =
          (readMap h am).map (fun p => (p.1, readRow h p.2)) := by
        apply List.map_congr_left
        intro p hp
        have hlt := hrows_lt p hp
        rw [readRow, heap_get_alloc_lt _ _ p.2
              (lt_of_lt_of_le hlt (copyRows_next_le _ h)),
            copyRows_get_lt _ h p.2 hlt, readRow]
      rw [hleft, hright, copyRows_values _ h hrows_lt]
  · -- fetch path
    rw [get_progress_mapH, if_neg hcond]
    dsimp only
    generalize hout : ((if gated then emptyBlob else remote)).progress.filter
        (fun p => p.1 != "") = out
    generalize har : allocRows h out = ar
    have harn : h.next ≤ ar.2.next := by rw [← har]; exact allocRows_next_le _ h
    have har_addrs : ∀ p ∈ ar.1, h.next ≤ p.2 ∧ p.2 < ar.2.next := by
      rw [← har]; exact allocRows_addrs out h
    have har_vals : ar.1.map (fun p => (p.1, readRow ar.2 p.2)) = out := by
      rw [← har]; exact allocRows_values out h
    generalize halC : Heap.alloc ar.2 (Obj.mapObj ar.1) = alC
    have halC1 : alC.1 = ar.2.next := by rw [← halC]; rfl
    have halCn : alC.2.next = ar.2.next + 1 := by rw [← halC]; rfl
    have halCget1 : alC.2.get alC.1 = some (Obj.mapObj ar.1) := by
      rw [← halC]; exact heap_get_alloc_fst _ _
    have halCget : ∀ b, b < ar.2.next → alC.2.get b = ar.2.get b := by
      intro b hb
      rw [← halC]
      exact heap_get_alloc_lt _ _ b hb
    generalize hcp : copyRows alC.2 ar.1 = cp
    have hcpn : alC.2.next ≤ cp.2.next := by rw [← hcp]; exact copyRows_next_le _ _
    have hcp_addrs : ∀ p ∈ cp.1, alC.2.next ≤ p.2 ∧ p.2 < cp.2.next := by
      rw [← hcp]; exact copyRows_addrs ar.1 alC.2
    have hcp_get : ∀ b, b < alC.2.next → cp.2.get b = alC.2.get b := by
      rw [← hcp]; exact copyRows_get_lt ar.1 alC.2
    have hcp_vals : cp.1.map (fun p => (p.1, readRow cp.2 p.2)) =
        ar.1.map (fun p => (p.1, readRow alC.2 p.2)) := by
      rw [← hcp]
      exact copyRows_values ar.1 alC.2
        (fun p hp => lt_of_lt_of_le (har_addrs p hp).2 (by rw [halCn]; exact Nat.le_succ _))
    have halC1_lt : alC.1 < alC.2.next := by rw [halC1, halCn]; exact Nat.lt_succ_self _
    have hreadC : readMap (Heap.alloc cp.2 (Obj.mapObj cp.1)).2 alC.1 = ar.1 := by
      rw [readMap, heap_get_alloc_lt _ _ alC.1 (lt_of_lt_of_le halC1_lt hcpn),
          hcp_get alC.1 halC1_lt, halCget1]
    have hself : readMap (Heap.alloc cp.2 (Obj.mapObj cp.1)).2
        (Heap.alloc cp.2 (Obj.mapObj cp.1)).1 = cp.1 := by
      rw [readMap, heap_get_alloc_fst]
    refine ⟨alC.2.next, ?_, ?_, ?_⟩
    · intro x hx
      simp only [cacheAddrs, hreadC, List.mem_append, List.mem_cons, List.mem_map] at hx
      rcases hx with (rfl | ⟨p, hp, rfl⟩) | hx
      · exact halC1_lt
      · exact lt_of_lt_of_le (har_addrs p hp).2 (by rw [halCn]; exact Nat.le_succ _)
      · have hxs : x ∈ cacheAddrs h c := by
          rw [cacheAddrs]
          exact List.mem_append.mpr (Or.inr hx)
        calc x < h.next := hbelow x hxs
          _ ≤ ar.2.next := harn
          _ ≤ _ := by rw [halCn]; exact Nat.le_succ _
    · intro x hx
      simp only [retAddrs, hself, List.mem_cons, List.mem_map] at hx
      rcases hx with rfl | ⟨p, hp, rfl⟩
      · exact hcpn
      · exact (hcp_addrs p hp).1
    · simp only [cacheView]
      rw [mapValues, mapValues, hself, hreadC]
      have hleft : cp.1.map (fun p => (p.1,
          readRow (Heap.alloc cp.2 (Obj.mapObj cp.1)).2 p.2)) =
          cp.1.map (fun p => (p.1, readRow cp.2 p.2)) := by
        apply List.map_congr_left
        intro p hp
        rw [readRow, heap_get_alloc_lt _ _ p.2 (hcp_addrs p hp).2, readRow]
      have hright : ar.1.map (fun p => (p.1,
          readRow (Heap.alloc cp.2 (Obj.mapObj cp.1)).2 p.2)) =
          ar.1.map (fun p => (p.1, readRow ar.2 p.2)) := by
        apply List.map_congr_left
        intro p hp
        have hlt : p.2 < alC.2.next :=
          lt_of_lt_of_le (har_addrs p hp).2 (by rw [halCn]; exact Nat.le_succ _)
        rw [readRow, heap_get_alloc_lt _ _ p.2 (lt_of_lt_of_le hlt hcpn),
            hcp_get p.2 hlt, halCget p.2 (har_addrs p hp).2, readRow]
      rw [hleft, hright]
      have hcp_vals2 : cp.1.map (fun p => (p.1, readRow cp.2 p.2)) =
          ar.1.map (fun p => (p.1, readRow ar.2 p.2)) := by
        rw [hcp_vals]
        apply List.map_congr_left
        intro p hp
        rw [readRow, halCget p.2 (har_addrs p hp).2, readRow]
      rw [hcp_vals2]

/-- Spec of the heap-instrumented summary read: the returned dict is an
object the cache never references, and it carries the summary value the
cache holds afterwards. -/
theorem get_summaryH_spec (h : Heap) (c : CacheH) (now : ℚ) (gated : Bool)
    (remote : Blob) (hWF : cacheWFb h c = true) :
    (get_summaryH h c now gated remote).1 ∉
      cacheAddrs (get_summaryH h c now gated remote).2.1
        (get_summaryH h c now gated remote).2.2 ∧
    readSumm (get_summaryH h c now gated remote).2.1
        (get_summaryH h c now gated remote).1 =
      (cacheView (get_summaryH h c now gated remote).2.1
        (get_summaryH h c now gated remote).2.2).2 := by
  have hbelow := cacheWFb_below h c hWF
  by_cases hcond : (c.summary.2.isSome && freshB now c.summary.1 2) = true
  · -- cached path
    obtain ⟨as, has⟩ : ∃ as, c.summary.2 = some as := by
      have hs := (Bool.and_eq_true _ _ |>.mp hcond).1
      exact Option.isSome_iff_exists.mp hs
    have has_lt : as < h.next := by
      apply hbelow
      rw [cacheAddrs, has]
      simp
    have hr : get_summaryH h c now gated remote =
        ((Heap.alloc h (Obj.summObj (readSumm h as))).1,
         (Heap.alloc h (Obj.summObj (readSumm h as))).2, c) := by
      rw [get_summaryH, if_pos hcond]
      rw [has]
      rfl
    rw [hr]
    have hca : cacheAddrs (Heap.alloc h (Obj.summObj (readSumm h as))).2 c =
        cacheAddrs h c := by
      cases ham : c.progressMap.2 with
      | none => simp [cacheAddrs, ham]
      | some am =>
        have hlt : am < h.next := by
          apply hbelow
          rw [cacheAddrs, ham]
          simp
        have hread : readMap (Heap.alloc h (Obj.summObj (readSumm h as))).2 am =
            readMap h am := by
          rw [readMap, heap_get_alloc_lt _ _ am hlt, readMap]
        simp [cacheAddrs, ham, hread]
    constructor
    · intro hmem
      rw [hca] at hmem
      exact absurd (hbelow _ hmem) (lt_irrefl h.next)
    · have hfst : readSumm (Heap.alloc h (Obj.summObj (readSumm h as))).2
          (Heap.alloc h (Obj.summObj (readSumm h as))).1 = readSumm h as := by
        rw [readSumm, heap_get_alloc_fst]
      have hstab : readSumm (Heap.alloc h (Obj.summObj (readSumm h as))).2 as =
          readSumm h as := by
        rw [readSumm, heap_get_alloc_lt _ _ as has_lt, readSumm]
      simp only [cacheView, has]
      rw [hfst, hstab]
  · -- fetch path
    rw [get_summaryH, if_neg hcond]
    dsimp only
    generalize hblob : (if gated then emptyBlob else remote) = blob
    generalize halC : Heap.alloc h (Obj.summObj blob.summary) = alC
    have halC1 : alC.1 = h.next := by rw [← halC]; rfl
    have halCn : alC.2.next = h.next + 1 := by rw [← halC]; rfl
    have halCget1 : alC.2.get alC.1 = some (Obj.summObj blob.summary) := by
      rw [← halC]; exact heap_get_alloc_fst _ _
    have halCget : ∀ b, b < h.next → alC.2.get b = h.get b := by
      intro b hb
      rw [← halC]
      exact heap_get_alloc_lt _ _ b hb
    have hret : (Heap.alloc alC.2 (Obj.summObj blob.summary)).1 = alC.2.next := rfl
    constructor
    · intro hmem
      rw [cacheAddrs] at hmem
      simp only [List.mem_append] at hmem
      rcases hmem with hm | hm
      · -- progress-map component of the old cache
        cases ham : c.progressMap.2 with
        | none => rw [ham] at hm; simp at hm
        | some am =>
          rw [ham] at hm
          have ham_lt : am < h.next := by
            apply hbelow
            rw [cacheAddrs, ham]
            simp
          have hread : readMap (Heap.alloc alC.2 (Obj.summObj blob.summary)).2 am =
              readMap h am := by
            rw [readMap, heap_get_alloc_lt _ _ am
                  (by omega), halCget am ham_lt, readMap]
          simp only [hread, List.mem_cons, List.mem_map] at hm
          rcases hm with hm | ⟨p, hp, hm⟩
          · rw [hret, halCn] at hm
            omega
          · have hplt : p.2 < h.next := by
              apply hbelow
              rw [cacheAddrs, ham]
              simp only [List.mem_append, List.mem_cons, List.mem_map]
              exact Or.inl (Or.inr ⟨p, hp, rfl⟩)
            rw [hret, halCn] at hm
            omega
      · -- the newly cached summary address
        simp only [List.mem_cons, List.not_mem_nil, or_false] at hm
        rw [hret, halCn, halC1] at hm
        omega
    · have hfst : readSumm (Heap.alloc alC.2 (Obj.summObj blob.summary)).2
          (Heap.alloc alC.2 (Obj.summObj blob.summary)).1 = blob.summary := by
        rw [readSumm, heap_get_alloc_fst]
      have hstab : readSumm (Heap.alloc alC.2 (Obj.summObj blob.summary)).2 alC.1 =
          blob.summary := by
        rw [readSumm, heap_get_alloc_lt _ _ alC.1 (by omega), halCget1]
      simp only [cacheView]
      rw [hfst, hstab]

/-- Mutating an object the cache does not reference leaves the value view of
the cache unchanged. -/
theorem cacheView_mut_of_not_mem (h : Heap) (c : CacheH) (a : Nat) (o : Obj)
    (ha : a ∉ cacheAddrs h c) :
    cacheView (Heap.mut h a o) c = cacheView h c := by
  have hmapn : ∀ am, c.progressMap.2 = some am →
      am ≠ a ∧ ∀ p ∈ readMap h am, p.2 ≠ a := by
    intro am ham
    constructor
    · intro he
      apply ha
      rw [cacheAddrs, ham]
      simp [he]
    · intro p hp he
      apply ha
      rw [cacheAddrs, ham]
      simp only [List.mem_append, List.mem_cons, List.mem_map]
      exact Or.inl (Or.inr ⟨p, hp, he⟩)
  have hsumn : ∀ as, c.summary.2 = some as → as ≠ a := by
    intro as has he
    apply ha
    rw [cacheAddrs, has]
    simp [he]
  have h1 : (cacheView (Heap.mut h a o) c).1 = (cacheView h c).1 := by
    simp only [cacheView]
    cases ham : c.progressMap.2 with
    | none => rfl
    | some am =>
      obtain ⟨hama, hrows⟩ := hmapn am ham
      have hm : readMap (Heap.mut h a o) am = readMap h am := by
        rw [readMap, heap_get_mut_ne h a am o hama, readMap]
      simp only [mapValues, hm]
      apply List.map_congr_left
      intro p hp
      rw [readRow, heap_get_mut_ne h a p.2 o (hrows p hp), readRow]
  have h2 : (cacheView (Heap.mut h a o) c).2 = (cacheView h c).2 := by
    simp only [cacheView]
    cases has : c.summary.2 with
    | none => rfl
    | some as =>
      have hs : readSumm (Heap.mut h a o) as = readSumm h as := by
        rw [readSumm, heap_get_mut_ne h a as o (hsumn as has), readSumm]
      simp only [hs]
  exact Prod.ext_iff.mpr ⟨h1, h2⟩

/-- C10: get_progress_map and get_summary return fresh copies on every call.
Every address reachable from the returned progress-map dict (the dict itself
and each per-lab row) is outside the set of addresses the cache references,
mutating any returned object leaves the value view of the cache unchanged
(hence every subsequent read, which serves either the cache view or remote
data, is unaffected), and the returned objects carry exactly the values the
cache holds; likewise for the returned summary dict. -/
theorem C10_reads_return_fresh_copies (h : Heap) (c : CacheH) (now : ℚ)
    (gated : Bool) (remote : Blob) (a : Nat) (o : Obj)
    (hWF : cacheWFb h c = true) :
    (∀ x ∈ retAddrs (get_progress_mapH h c false now gated remote).2.1
        (get_progress_mapH h c false now gated remote).1,
      x ∉ cacheAddrs (get_progress_mapH h c false now gated remote).2.1
        (get_progress_mapH h c false now gated remote).2.2) ∧
    (a ∈ retAddrs (get_progress_mapH h c false now gated remote).2.1
        (get_progress_mapH h c false now gated remote).1 →
      cacheView (Heap.mut (get_progress_mapH h c false now gated remote).2.1 a o)
        (get_progress_mapH h c false now gated remote).2.2 =
      cacheView (get_progress_mapH h c false now gated remote).2.1
        (get_progress_mapH h c false now gated remote).2.2) ∧
    mapValues (get_progress_mapH h c false now gated remote).2.1
        (get_progress_mapH h c false now gated remote).1 =
      (cacheView (get_progress_mapH h c false now gated remote).2.1
        (get_progress_mapH h c false now gated remote).2.2).1 ∧
    (get_summaryH h c now gated remote).1 ∉
      cacheAddrs (get_summaryH h c now gated remote).2.1
        (get_summaryH h c now gated remote).2.2 ∧
    cacheView (Heap.mut (get_summaryH h c now gated remote).2.1
        (get_summaryH h c now gated remote).1 o)
        (get_summaryH h c now gated remote).2.2 =
      cacheView (get_summaryH h c now gated remote).2.1
        (get_summaryH h c now gated remote).2.2 ∧
    readSumm (get_summaryH h c now gated remote).2.1
        (get_summaryH h c now gated remote).1 =
      (cacheView (get_summaryH h c now gated remote).2.1
        (get_summaryH h c now gated remote).2.2).2 := by
  obtain ⟨B, hbelowB, hretB, hvals⟩ := get_progress_mapH_spec h c now gated remote hWF
  obtain ⟨hsn, hsv⟩ := get_summaryH_spec h c now gated remote hWF
  have hdisj : ∀ x ∈ retAddrs (get_progress_mapH h c false now gated remote).2.1
      (get_progress_mapH h c false now gated remote).1,
      x ∉ cacheAddrs (get_progress_mapH h c false now gated remote).2.1
        (get_progress_mapH h c false now gated remote).2.2 :=
    fun x hx hmem => absurd (hbelowB x hmem) (not_lt.mpr (hretB x hx))
  exact ⟨hdisj, fun haa => cacheView_mut_of_not_mem _ _ a o (hdisj a haa), hvals,
         hsn, cacheView_mut_of_not_mem _ _ _ o hsn, hsv⟩

/-- Witness for C10 on the empty cache with a one-lab remote blob. -/
theorem C10_reads_return_fresh_copies_witness :
    (∀ x ∈ retAddrs
        (get_progress_mapH sampleHeap sampleCacheH false 0 false sampleBlob).2.1
        (get_progress_mapH sampleHeap sampleCacheH false 0 false sampleBlob).1,
      x ∉ cacheAddrs
        (get_progress_mapH sampleHeap sampleCacheH false 0 false sampleBlob).2.1
        (get_progress_mapH sampleHeap sampleCacheH false 0 false sampleBlob).2.2) ∧
    (3 ∈ retAddrs
        (get_progress_mapH sampleHeap sampleCacheH false 0 false sampleBlob).2.1
        (get_progress_mapH sampleHeap sampleCacheH false 0 false sampleBlob).1 →
      cacheView
        (Heap.mut
          (get_progress_mapH sampleHeap sampleCacheH false 0 false sampleBlob).2.1 3
          (Obj.rowObj rowDefault))
        (get_progress_mapH sampleHeap sampleCacheH false 0 false sampleBlob).2.2 =
      cacheView
        (get_progress_mapH sampleHeap sampleCacheH false 0 false sampleBlob).2.1
        (get_progress_mapH sampleHeap sampleCacheH false 0 false sampleBlob).2.2) ∧
    mapValues
        (get_progress_mapH sampleHeap sampleCacheH false 0 false sampleBlob).2.1
        (get_progress_mapH sampleHeap sampleCacheH false 0 false sampleBlob).1 =
      (cacheView
        (get_progress_mapH sampleHeap sampleCacheH false 0 false sampleBlob).2.1
        (get_progress_mapH sampleHeap sampleCacheH false 0 false sampleBlob).2.2).1 ∧
    (get_summaryH sampleHeap sampleCacheH 0 false sampleBlob).1 ∉
      cacheAddrs (get_summaryH sampleHeap sampleCacheH 0 false sampleBlob).2.1
        (get_summaryH sampleHeap sampleCacheH 0 false sampleBlob).2.2 ∧
    cacheView
        (Heap.mut (get_summaryH sampleHeap sampleCacheH 0 false sampleBlob).2.1
          (get_summaryH sampleHeap sampleCacheH 0 false sampleBlob).1
          (Obj.rowObj rowDefault))
        (get_summaryH sampleHeap sampleCacheH 0 false sampleBlob).2.2 =
      cacheView (get_summaryH sampleHeap sampleCacheH 0 false sampleBlob).2.1
        (get_summaryH sampleHeap sampleCacheH 0 false sampleBlob).2.2 ∧
    readSumm (get_summaryH sampleHeap sampleCacheH 0 false sampleBlob).2.1
        (get_summaryH sampleHeap sampleCacheH 0 false sampleBlob).1 =
      (cacheView (get_summaryH sampleHeap sampleCacheH 0 false sampleBlob).2.1
        (get_summaryH sampleHeap sampleCacheH 0 false sampleBlob).2.2).2 :=
  C10_reads_return_fresh_copies sampleHeap sampleCacheH 0 false sampleBlob 3
    (Obj.rowObj rowDefault) (by decide)

example : normalizeOp "  Starting " = "starting" := by decide
example : normalizeOp "" = "stopped" := by decide
example : normalizeOp "bogus" = "stopped" := by decide
example :
    (run [Event.startReq "a" false, Event.startDone "a" true]).runtimeOp = "running" := by
  decide
example :
    (run [Event.startReq "a" false, Event.startDone "a" false]).persistedLock = none := by
  decide
example :
    (run [Event.startReq "a" false, Event.startDone "a" true,
          Event.stopReq "a", Event.stopDone "a" false]).persistedLock = some "a" := by
  decide
